import Mathlib

/-!
Verification development for the naia client/server networking runtime.

The definitions below are a shallow embedding of the repository's Rust
sources.  Machine integers are modelled as `Nat` with explicit `% 2^w`
where wrap-around matters, byte buffers as `List Nat` (each entry a byte
value), `HashMap` as an association list with unique keys, `VecDeque` as a
list whose head is the queue front, and fallible code (a Rust panic via
`unwrap`/`expect` or an out-of-range slice) as `Option` with `none`
standing for the failure.  Rust trait objects for events are monomorphised
to a record `REvent` carrying the manifest-assigned naia id, the payload
bytes and the `is_guaranteed` flag; the incoming-event type parameter `T`
of `EventManager<T>` is likewise monomorphised to `REvent`.

Components of the repository that are not part of the visible sources
(PacketReader, PacketWriter, Timer, Timestamp, PingManager, AckManager,
Connection, ClientEntityManager, ClientTickManager, StandardHeader) are
modelled from the specification; each such definition says so in its doc
comment.
-/

/-- Monomorphised event: the manifest-assigned 16-bit naia id, the payload
bytes, and the `is_guaranteed` reliability flag of the Rust `Event` trait. -/
structure REvent where
  naiaId : Nat
  payload : List Nat
  guaranteed : Bool
deriving DecidableEq

/-- Packet types of the protocol (shared `PacketType` enum). -/
inductive PacketType where
  | ClientChallengeRequest
  | ServerChallengeResponse
  | ClientConnectRequest
  | ServerConnectResponse
  | Data
  | Heartbeat
  | Ping
  | Pong
  | Disconnect
deriving DecidableEq

/-- Modelled from the spec: `PacketReader` (not under src/) holds the
packet body and a cursor; reads advance the cursor and fail (`none`,
standing for the Rust panic) past the end of the buffer. -/
structure PacketReader where
  buffer : List Nat
  cursor : Nat
deriving DecidableEq

/-- Modelled from the spec: whether the reader has unread bytes. -/
def PacketReader.hasMore (r : PacketReader) : Bool :=
  r.cursor < r.buffer.length

/-- Modelled from the spec: read one byte, advancing the cursor. -/
def PacketReader.readU8 (r : PacketReader) : Option (Nat × PacketReader) :=
  match r.buffer.get? r.cursor with
  | some b => some (b % 256, { r with cursor := r.cursor + 1 })
  | none => none

/-- Modelled from the spec: read a big-endian u16, advancing the cursor. -/
def PacketReader.readU16BE (r : PacketReader) : Option (Nat × PacketReader) :=
  match r.readU8 with
  | some (b0, r1) =>
    match r1.readU8 with
    | some (b1, r2) => some (b0 * 256 + b1, r2)
    | none => none
  | none => none

/-- Modelled from the spec: the Manifest's factory functions.  `createEvent`
returns `none` for an unknown naia id (such events are silently skipped).
Entity payload sizes are manifest-determined because the wire format
carries no length for entity bytes. -/
structure Manifest where
  createEvent : Nat → List Nat → Option REvent
  entityReadBytes : Nat → Option Nat
  entityUpdateBytes : Nat → Nat
  applyEntityUpdate : Nat → List Nat → List Nat → List Nat

/-- State of `EventManager` (event_manager.rs): the outgoing FIFO (head =
front), the incoming FIFO, and the `sent_events` map from packet index to
the events written into that packet, kept as an association list with
unique keys. -/
structure EventManager where
  queued_outgoing_events : List REvent
  queued_incoming_events : List REvent
  sent_events : List (Nat × List REvent)
deriving DecidableEq

/-- Constructor `EventManager::new`. -/
def EventManager.new : EventManager :=
  { queued_outgoing_events := [], queued_incoming_events := [], sent_events := [] }

/-- Association-list lookup for the `sent_events` map. -/
def lookupBucket : List (Nat × List REvent) → Nat → Option (List REvent)
  | [], _ => none
  | (k0, v) :: rest, k => if k0 = k then some v else lookupBucket rest k

/-- Association-list removal for the `sent_events` map. -/
def removeBucket (l : List (Nat × List REvent)) (k : Nat) : List (Nat × List REvent) :=
  l.filter (fun p => p.1 != k)

/-- The bucket of a packet index, the empty list when absent. -/
def bucketGet (l : List (Nat × List REvent)) (k : Nat) : List REvent :=
  (lookupBucket l k).getD []

/-- Insert-if-absent followed by `Vec::push`, as `pop_outgoing_event` does:
create an empty bucket for a missing key, then push the event at its end. -/
def bucketPush : List (Nat × List REvent) → Nat → REvent → List (Nat × List REvent)
  | [], k, e => [(k, [e])]
  | (k0, v) :: rest, k, e =>
    if k0 = k then (k0, v ++ [e]) :: rest else (k0, v) :: bucketPush rest k e

/-- The `sent_events` half of `unpop_outgoing_event`: `Vec::pop` the bucket
of the key (a no-op on an absent key, as `get_mut` returns `None`), then
remove the bucket when it became empty. -/
def bucketPopLast : List (Nat × List REvent) → Nat → List (Nat × List REvent)
  | [], _ => []
  | (k0, v) :: rest, k =>
    if k0 = k then
      (if v.dropLast.isEmpty then rest else (k0, v.dropLast) :: rest)
    else (k0, v) :: bucketPopLast rest k

/-- `EventManager::notify_packet_delivered`: stop tracking the packet. -/
def EventManager.notifyPacketDelivered (em : EventManager) (packetIndex : Nat) : EventManager :=
  { em with sent_events := removeBucket em.sent_events packetIndex }

/-- `EventManager::notify_packet_dropped`: push every event of the bucket,
in stored order, to the back of the outgoing queue, then drop the bucket. -/
def EventManager.notifyPacketDropped (em : EventManager) (packetIndex : Nat) : EventManager :=
  match lookupBucket em.sent_events packetIndex with
  | some droppedEventsList =>
    { em with
        queued_outgoing_events := em.queued_outgoing_events ++ droppedEventsList,
        sent_events := removeBucket em.sent_events packetIndex }
  | none => em

/-- `EventManager::has_outgoing_events`. -/
def EventManager.hasOutgoingEvents (em : EventManager) : Bool :=
  em.queued_outgoing_events.length != 0

/-- `EventManager::pop_outgoing_event`: pop the queue front; a guaranteed
event is additionally recorded in the `sent_events` bucket of the packet. -/
def EventManager.popOutgoingEvent (em : EventManager) (packetIndex : Nat) :
    Option REvent × EventManager :=
  match em.queued_outgoing_events with
  | [] => (none, em)
  | e :: rest =>
    if e.guaranteed then
      (some e,
        { em with
            queued_outgoing_events := rest,
            sent_events := bucketPush em.sent_events packetIndex e })
    else
      (some e, { em with queued_outgoing_events := rest })

/-- `EventManager::unpop_outgoing_event`: for a guaranteed event pop the
trailing entry of the packet's bucket (removing the bucket when empty),
then push the event back to the queue front. -/
def EventManager.unpopOutgoingEvent (em : EventManager) (packetIndex : Nat)
    (e : REvent) : EventManager :=
  let em1 :=
    if e.guaranteed then
      { em with sent_events := bucketPopLast em.sent_events packetIndex }
    else em
  { em1 with queued_outgoing_events := e :: em1.queued_outgoing_events }

/-- `EventManager::queue_outgoing_event`: clone the event to the queue back. -/
def EventManager.queueOutgoingEvent (em : EventManager) (e : REvent) : EventManager :=
  { em with queued_outgoing_events := em.queued_outgoing_events ++ [e] }

/-- `EventManager::has_incoming_events`. -/
def EventManager.hasIncomingEvents (em : EventManager) : Bool :=
  em.queued_incoming_events.length != 0

/-- `EventManager::pop_incoming_event`. -/
def EventManager.popIncomingEvent (em : EventManager) : Option REvent × EventManager :=
  match em.queued_incoming_events with
  | [] => (none, em)
  | e :: rest => (some e, { em with queued_incoming_events := rest })

/-- Body of the `for _x in 0..event_count` loop of
`EventManager::process_data`: each iteration reads a big-endian u16 naia id
(`expect`, so `none` on a truncated buffer), a u8 payload length
(`unwrap`), slices `buffer[start..end]` (`none` when the declared end runs
past the buffer, as the Rust slice panics), asks the manifest for the
event (unknown ids are skipped), and sets the cursor past the payload. -/
def processEventsLoop (m : Manifest) : Nat → EventManager → PacketReader →
    Option (EventManager × PacketReader)
  | 0, em, r => some (em, r)
  | n + 1, em, r =>
    match r.readU16BE with
    | none => none
    | some (naiaId, r1) =>
      match r1.readU8 with
      | none => none
      | some (payloadLength, r2) =>
        let payloadStart := r2.cursor
        let payloadEnd := payloadStart + payloadLength
        if r2.buffer.length < payloadEnd then none
        else
          let eventPayload := (r2.buffer.drop payloadStart).take payloadLength
          let em1 :=
            match m.createEvent naiaId eventPayload with
            | some newEvent =>
              { em with queued_incoming_events := em.queued_incoming_events ++ [newEvent] }
            | none => em
          processEventsLoop m n em1 { r2 with cursor := payloadEnd }

/-- `EventManager::process_data`: read the u8 event count (`unwrap`, so
`none` on an empty remainder), then run the per-event loop. -/
def EventManager.processData (m : Manifest) (em : EventManager) (r : PacketReader) :
    Option (EventManager × PacketReader) :=
  match r.readU8 with
  | none => none
  | some (eventCount, r1) => processEventsLoop m eventCount em r1

/-- `EventManager::write_data`: the serialized form of one event on the
wire, `u16 naia_id (big-endian), u8 payload length (truncating cast), then
the payload bytes`. -/
def eventWireBytes (e : REvent) : List Nat :=
  [e.naiaId / 256 % 256, e.naiaId % 256, e.payload.length % 256] ++ e.payload

/-- Modelled from the spec: `PacketWriter` (not under src/) collects the
manager blocks of an outbound Data packet, here the ping block bytes and
the event block (event count plus serialized events).  The MTU budget is
not pinned by the spec and is passed as a parameter where it is checked. -/
structure PacketWriter where
  pingBytes : List Nat
  eventCount : Nat
  eventBytes : List Nat
deriving DecidableEq

/-- Modelled from the spec: a fresh, empty writer. -/
def PacketWriter.new : PacketWriter :=
  { pingBytes := [], eventCount := 0, eventBytes := [] }

/-- Modelled from the spec: `write_event` appends `(naia_id, len, payload)`
to the writer's event buffer and returns `false`, leaving the writer
unchanged, when that would exceed the MTU budget. -/
def PacketWriter.writeEvent (mtu : Nat) (w : PacketWriter) (e : REvent) :
    Bool × PacketWriter :=
  let bytes := eventWireBytes e
  if mtu < w.eventBytes.length + bytes.length then (false, w)
  else
    (true,
      { w with eventCount := w.eventCount + 1, eventBytes := w.eventBytes ++ bytes })

/-- Modelled from the spec: whether any manager wrote bytes. -/
def PacketWriter.hasBytes (w : PacketWriter) : Bool :=
  !w.pingBytes.isEmpty || !w.eventBytes.isEmpty

/-- Modelled from the spec: assemble the packet body as the concatenation
of manager blocks, each introduced by its u8 manager tag (0 = Event,
1 = Entity, 2 = Ping); the event block carries a u8 count (truncating
cast) before the serialized events. -/
def PacketWriter.getBytes (w : PacketWriter) : List Nat :=
  (if w.pingBytes.isEmpty then [] else 2 :: w.pingBytes) ++
  (if w.eventBytes.isEmpty then [] else 0 :: (w.eventCount % 256) :: w.eventBytes)

/-- Modelled from the spec: a logical `Timer` stores its interval and the
next firing instant; `ringing` is a pure comparison against a
caller-provided now. -/
structure Timer where
  interval : Nat
  nextFire : Nat
deriving DecidableEq

/-- Modelled from the spec: `Timer::new` arms the timer one interval from
now. -/
def Timer.new (interval now : Nat) : Timer :=
  { interval := interval, nextFire := now + interval }

/-- Modelled from the spec: whether the timer has fired at `now`. -/
def Timer.ringing (t : Timer) (now : Nat) : Bool :=
  t.nextFire ≤ now

/-- Modelled from the spec: re-arm the timer one interval from now. -/
def Timer.reset (t : Timer) (now : Nat) : Timer :=
  { t with nextFire := now + t.interval }

/-- Modelled from the spec: `ring_manual` makes the timer ring at once. -/
def Timer.ringManual (t : Timer) : Timer :=
  { t with nextFire := 0 }

/-- Configuration shared by client and server (connection_config.rs);
durations are modelled as `Nat` instants of an abstract clock. -/
structure ConnectionConfig where
  disconnectionTimeoutDuration : Nat
  heartbeatInterval : Nat
  pingInterval : Nat
  pingSampleSize : Nat
deriving DecidableEq

/-- Modelled from the spec: the `PingManager` (not under src/) keeps
whether a ping is in flight and when the last ping was sent;
`should_write` is true iff no ping is in flight or the ping interval has
elapsed since the last send. -/
structure PingManager where
  pingInterval : Nat
  sampleSize : Nat
  inFlight : Bool
  lastSentAt : Nat
deriving DecidableEq

/-- Modelled from the spec: `PingManager::new`. -/
def PingManager.new (pingInterval sampleSize : Nat) : PingManager :=
  { pingInterval := pingInterval, sampleSize := sampleSize,
    inFlight := false, lastSentAt := 0 }

/-- Modelled from the spec: `should_write` is true iff (a) no ping is in
flight or (b) the ping interval elapsed since the last send. -/
def PingManager.shouldWrite (pm : PingManager) (now : Nat) : Bool :=
  !pm.inFlight || pm.lastSentAt + pm.pingInterval ≤ now

/-- Modelled from the spec: the 8-byte big-endian local-clock timestamp a
ping block carries. -/
def beBytes64 (v : Nat) : List Nat :=
  [v / 256 ^ 7 % 256, v / 256 ^ 6 % 256, v / 256 ^ 5 % 256, v / 256 ^ 4 % 256,
   v / 256 ^ 3 % 256, v / 256 ^ 2 % 256, v / 256 % 256, v % 256]

/-- Modelled from the spec: `PingManager::write_data` writes the ping block
into the writer and marks the ping in flight. -/
def PingManager.writeData (pm : PingManager) (now : Nat) (w : PacketWriter) :
    PingManager × PacketWriter :=
  ({ pm with inFlight := true, lastSentAt := now },
   { w with pingBytes := beBytes64 now })

/-- Modelled from the spec: `PingManager::read_data` consumes the 8-byte
timestamp echo of a pong and clears the in-flight marker (the RTT sample
ring is not modelled; no claim concerns it).  `none` stands for a read
past the end of the buffer. -/
def PingManager.readData (pm : PingManager) (r : PacketReader) :
    Option (PingManager × PacketReader) :=
  if r.cursor + 8 ≤ r.buffer.length then
    some ({ pm with inFlight := false }, { r with cursor := r.cursor + 8 })
  else none

/-- Wrapped distance `(a - b) mod 2^16` between sequence numbers. -/
def seqDelta (a b : Nat) : Nat :=
  (a % 65536 + 65536 - b % 65536) % 65536

/-- Modelled from the spec: the per-peer `Connection` (not under src/)
composes the EventManager with the AckManager state (next outgoing
sequence, last remote sequence, remote ack bitfield, table of our
in-flight sequences) and the heartbeat and drop timers. -/
structure Connection where
  eventManager : EventManager
  heartbeatTimer : Timer
  dropTimer : Timer
  nextOutgoingSeq : Nat
  lastRemoteSeq : Nat
  remoteAckBitfield : Nat
  sentSeqs : List Nat
deriving DecidableEq

/-- Modelled from the spec: `Connection::new` from a config. -/
def Connection.new (config : ConnectionConfig) (now : Nat) : Connection :=
  { eventManager := EventManager.new,
    heartbeatTimer := Timer.new config.heartbeatInterval now,
    dropTimer := Timer.new config.disconnectionTimeoutDuration now,
    nextOutgoingSeq := 0,
    lastRemoteSeq := 0,
    remoteAckBitfield := 0,
    sentSeqs := [] }

/-- Modelled from the spec: `mark_sent` resets the heartbeat timer. -/
def Connection.markSent (c : Connection) (now : Nat) : Connection :=
  { c with heartbeatTimer := c.heartbeatTimer.reset now }

/-- Modelled from the spec: `mark_heard` resets the drop timer. -/
def Connection.markHeard (c : Connection) (now : Nat) : Connection :=
  { c with dropTimer := c.dropTimer.reset now }

/-- Modelled from the spec: `should_drop` iff the drop timer fired. -/
def Connection.shouldDrop (c : Connection) (now : Nat) : Bool :=
  c.dropTimer.ringing now

/-- Modelled from the spec: `should_send_heartbeat` iff the heartbeat
timer fired. -/
def Connection.shouldSendHeartbeat (c : Connection) (now : Nat) : Bool :=
  c.heartbeatTimer.ringing now

/-- Packets are modelled structurally: the StandardHeader fields (packet
type, 16-bit sequence, ack sequence, 32-bit ack bitfield) plus the body
bytes; `StandardHeader::read` is then a projection. -/
structure WirePacket where
  ptype : PacketType
  seq : Nat
  ackSeq : Nat
  ackBits : Nat
  payload : List Nat
deriving DecidableEq

/-- Modelled from the spec: `process_outgoing_header` stamps the packet
with the current outgoing sequence and ack state, records the sequence as
in flight and advances the sequence counter (wrapping at 2^16). -/
def Connection.processOutgoingHeader (c : Connection) (pt : PacketType)
    (body : List Nat) : Connection × WirePacket :=
  ({ c with
      nextOutgoingSeq := (c.nextOutgoingSeq + 1) % 65536,
      sentSeqs := c.sentSeqs ++ [c.nextOutgoingSeq] },
   { ptype := pt, seq := c.nextOutgoingSeq, ackSeq := c.lastRemoteSeq,
     ackBits := c.remoteAckBitfield, payload := body })

/-- Modelled from the spec: whether a remote ack header (ack sequence plus
32-bit bitfield, bit i meaning `ack_seq - i - 1` received) acknowledges
our sequence `q`. -/
def ackCovers (ackSeq ackBits q : Nat) : Bool :=
  q % 65536 == ackSeq % 65536 ||
  (let d := seqDelta ackSeq q
   decide (1 ≤ d) && decide (d ≤ 32) && (ackBits / 2 ^ (d - 1)) % 2 == 1)

/-- Modelled from the spec: `process_incoming_header` updates the remote
sequence window (shifting the bitfield for a newer sequence, setting the
bit of a stale duplicate), then notifies the EventManager of every newly
acknowledged in-flight sequence (delivered) and of every in-flight
sequence older than `ack_seq - 33` (dropped), removing both kinds from
the in-flight table. -/
def Connection.processIncomingHeader (c : Connection) (p : WirePacket) : Connection :=
  let d := seqDelta p.seq c.lastRemoteSeq
  let c1 :=
    if 0 < d ∧ d < 32768 then
      { c with
          lastRemoteSeq := p.seq % 65536,
          remoteAckBitfield :=
            (c.remoteAckBitfield * 2 ^ d + 2 ^ (d - 1)) % 2 ^ 32 }
    else if d = 0 then c
    else
      let d2 := seqDelta c.lastRemoteSeq p.seq
      if 1 ≤ d2 ∧ d2 ≤ 32 then
        { c with
            remoteAckBitfield :=
              (c.remoteAckBitfield + (1 - c.remoteAckBitfield / 2 ^ (d2 - 1) % 2) * 2 ^ (d2 - 1)) % 2 ^ 32 }
      else c
  let acked := c1.sentSeqs.filter (fun q => ackCovers p.ackSeq p.ackBits q)
  let dropped := c1.sentSeqs.filter
    (fun q => !ackCovers p.ackSeq p.ackBits q && decide (33 < seqDelta p.ackSeq q))
  let em1 := acked.foldl (fun em q => em.notifyPacketDelivered q) c1.eventManager
  let em2 := dropped.foldl (fun em q => em.notifyPacketDropped q) em1
  { c1 with
      eventManager := em2,
      sentSeqs := c1.sentSeqs.filter
        (fun q => !ackCovers p.ackSeq p.ackBits q && !decide (33 < seqDelta p.ackSeq q)) }

/-- Messages the client-side entity manager hands to the application. -/
inductive ClientEntityMessage where
  | create (key : Nat)
  | update (key : Nat)
  | delete (key : Nat)
deriving DecidableEq

/-- Modelled from the spec: the client-side `EntityManager` (not under
src/) maps LocalEntityKey to the entity's naia id and owned byte image,
with a parallel pawn map and a queue of incoming messages. -/
structure ClientEntityManager where
  localEntities : List (Nat × (Nat × List Nat))
  pawns : List (Nat × (Nat × List Nat))
  incomingMessages : List ClientEntityMessage
deriving DecidableEq

/-- Modelled from the spec: `ClientEntityManager::new`. -/
def ClientEntityManager.new : ClientEntityManager :=
  { localEntities := [], pawns := [], incomingMessages := [] }

/-- Association-list lookup for entity maps. -/
def lookupEntity : List (Nat × (Nat × List Nat)) → Nat → Option (Nat × List Nat)
  | [], _ => none
  | (k0, v) :: rest, k => if k0 = k then some v else lookupEntity rest k

/-- Association-list insert-or-replace for entity maps. -/
def insertEntity : List (Nat × (Nat × List Nat)) → Nat → Nat × List Nat →
    List (Nat × (Nat × List Nat))
  | [], k, v => [(k, v)]
  | (k0, v0) :: rest, k, v =>
    if k0 = k then (k0, v) :: rest else (k0, v0) :: insertEntity rest k v

/-- Modelled from the spec: `get_local_entity`. -/
def ClientEntityManager.getLocalEntity (cem : ClientEntityManager) (key : Nat) :
    Option (Nat × List Nat) :=
  lookupEntity cem.localEntities key

/-- Modelled from the spec: `get_pawn`. -/
def ClientEntityManager.getPawn (cem : ClientEntityManager) (key : Nat) :
    Option (Nat × List Nat) :=
  lookupEntity cem.pawns key

/-- Modelled from the spec: `pop_incoming_message`. -/
def ClientEntityManager.popIncomingMessage (cem : ClientEntityManager) :
    Option ClientEntityMessage × ClientEntityManager :=
  match cem.incomingMessages with
  | [] => (none, cem)
  | msg :: rest => (some msg, { cem with incomingMessages := rest })

/-- Modelled from the spec: one message of the entity block, `u8 kind, u16
key`, then kind-specific bytes (0 = Create with u16 naia id and the
manifest-sized full entity bytes, 1 = Update with the manifest-sized
partial bytes applied to the stored entity, 2 = Delete).  An unknown
message kind, an unknown naia id or an Update for an absent key leaves the
byte length of the remainder undetermined and is modelled as a failure. -/
def processEntityMessage (m : Manifest) (cem : ClientEntityManager)
    (r : PacketReader) : Option (ClientEntityManager × PacketReader) :=
  match r.readU8 with
  | none => none
  | some (kind, r1) =>
    match r1.readU16BE with
    | none => none
    | some (key, r2) =>
      match kind with
      | 0 =>
        match r2.readU16BE with
        | none => none
        | some (naiaId, r3) =>
          match m.entityReadBytes naiaId with
          | none => none
          | some n =>
            if r3.buffer.length < r3.cursor + n then none
            else
              let bytes := (r3.buffer.drop r3.cursor).take n
              some
                ({ cem with
                    localEntities := insertEntity cem.localEntities key (naiaId, bytes),
                    incomingMessages := cem.incomingMessages ++ [ClientEntityMessage.create key] },
                 { r3 with cursor := r3.cursor + n })
      | 1 =>
        match lookupEntity cem.localEntities key with
        | none => none
        | some (naiaId, oldBytes) =>
          let n := m.entityUpdateBytes naiaId
          if r2.buffer.length < r2.cursor + n then none
          else
            let diff := (r2.buffer.drop r2.cursor).take n
            some
              ({ cem with
                  localEntities :=
                    insertEntity cem.localEntities key
                      (naiaId, m.applyEntityUpdate naiaId oldBytes diff),
                  incomingMessages := cem.incomingMessages ++ [ClientEntityMessage.update key] },
               { r2 with cursor := r2.cursor + n })
      | 2 =>
        some
          ({ cem with
              localEntities := cem.localEntities.filter (fun p => p.1 != key),
              incomingMessages := cem.incomingMessages ++ [ClientEntityMessage.delete key] },
           r2)
      | _ => none

/-- Modelled from the spec: the count-prefixed loop of the entity block. -/
def processEntityLoop (m : Manifest) : Nat → ClientEntityManager → PacketReader →
    Option (ClientEntityManager × PacketReader)
  | 0, cem, r => some (cem, r)
  | n + 1, cem, r =>
    match processEntityMessage m cem r with
    | none => none
    | some (cem1, r1) => processEntityLoop m n cem1 r1

/-- Modelled from the spec: `ClientEntityManager::process_data` reads the
u8 message count and processes that many entity messages. -/
def ClientEntityManager.processData (m : Manifest) (cem : ClientEntityManager)
    (r : PacketReader) : Option (ClientEntityManager × PacketReader) :=
  match r.readU8 with
  | none => none
  | some (count, r1) => processEntityLoop m count cem r1

/-- State of `ServerConnection` (server_connection.rs): the shared
connection, the client entity manager and the ping manager. -/
structure ServerConnection where
  connection : Connection
  entityManager : ClientEntityManager
  pingManager : PingManager
deriving DecidableEq

/-- `ServerConnection::new`. -/
def ServerConnection.new (config : ConnectionConfig) (now : Nat) : ServerConnection :=
  { connection := Connection.new config now,
    entityManager := ClientEntityManager.new,
    pingManager := PingManager.new config.pingInterval config.pingSampleSize }

/-- The `while let Some(popped_event) = pop_outgoing_event` loop of
`ServerConnection::get_outgoing_packet`: pop the next event; when
`write_event` returns false, unpop exactly that event for the same packet
index and stop. -/
def drainEvents (mtu s : Nat) (em : EventManager) (w : PacketWriter) :
    EventManager × PacketWriter :=
  match h : em.queued_outgoing_events with
  | [] => (em, w)
  | _ :: _ =>
    match h2 : em.popOutgoingEvent s with
    | (some e, em1) =>
      match PacketWriter.writeEvent mtu w e with
      | (true, w1) => drainEvents mtu s em1 w1
      | (false, _) => (em1.unpopOutgoingEvent s e, w)
    | (none, em1) => (em1, w)
termination_by em.queued_outgoing_events.length
decreasing_by
  simp only [EventManager.popOutgoingEvent, h] at h2
  split at h2 <;>
  · simp only [Prod.mk.injEq] at h2
    obtain ⟨h3, h4⟩ := h2
    subst h4
    simp [h]

/-- `ServerConnection::get_outgoing_packet`: when events are queued or a
ping is due, write the ping block if due, drain events until the queue
empties or the writer is full, and return the writer's bytes under a Data
header when anything was written.  The MTU budget and the current instant
are parameters (the source reads the clock internally). -/
def ServerConnection.getOutgoingPacket (mtu now : Nat) (sc : ServerConnection) :
    Option WirePacket × ServerConnection :=
  if sc.connection.eventManager.hasOutgoingEvents || sc.pingManager.shouldWrite now then
    let w0 := PacketWriter.new
    let nextPacketIndex := sc.connection.nextOutgoingSeq
    let (pm, w1) :=
      if sc.pingManager.shouldWrite now then sc.pingManager.writeData now w0
      else (sc.pingManager, w0)
    let (em, w2) := drainEvents mtu nextPacketIndex sc.connection.eventManager w1
    if w2.hasBytes then
      let (conn1, pkt) :=
        Connection.processOutgoingHeader { sc.connection with eventManager := em }
          PacketType.Data w2.getBytes
      (some pkt, { sc with connection := conn1, pingManager := pm })
    else
      (none,
       { sc with connection := { sc.connection with eventManager := em }, pingManager := pm })
  else (none, sc)

/-- The `while reader.has_more()` loop of
`ServerConnection::process_incoming_data`: read the u8 manager tag and
dispatch (0 = Event, 1 = Entity, 2 = Ping, anything else skipped).  The
cursor strictly advances each iteration, so a fuel of the buffer length
suffices; `none` stands for a panic inside a manager. -/
def processBlocks (m : Manifest) : Nat → ServerConnection → PacketReader →
    Option ServerConnection
  | 0, sc, _ => some sc
  | fuel + 1, sc, r =>
    if r.hasMore then
      match r.readU8 with
      | none => none
      | some (tag, r1) =>
        match tag with
        | 0 =>
          match sc.connection.eventManager.processData m r1 with
          | none => none
          | some (em, r2) =>
            processBlocks m fuel
              { sc with connection := { sc.connection with eventManager := em } } r2
        | 1 =>
          match sc.entityManager.processData m r1 with
          | none => none
          | some (cem, r2) => processBlocks m fuel { sc with entityManager := cem } r2
        | 2 =>
          match sc.pingManager.readData r1 with
          | none => none
          | some (pm, r2) => processBlocks m fuel { sc with pingManager := pm } r2
        | _ => processBlocks m fuel sc r1
    else some sc

/-- `ServerConnection::process_incoming_data`. -/
def ServerConnection.processIncomingData (m : Manifest) (sc : ServerConnection)
    (data : List Nat) : Option ServerConnection :=
  processBlocks m (data.length + 1) sc { buffer := data, cursor := 0 }

/-- Pass-through `ServerConnection::queue_event`. -/
def ServerConnection.queueEvent (sc : ServerConnection) (e : REvent) : ServerConnection :=
  { sc with connection := { sc.connection with eventManager := sc.connection.eventManager.queueOutgoingEvent e } }

/-- State of `InterpolationManager` (interpolation_manager.rs): two maps
keyed by LocalEntityKey holding `(last_update_instant, owned snapshot)`,
one for server-authoritative entities and one for pawns.  Snapshots are
the entity's naia id and byte image. -/
structure InterpolationManager where
  entityStore : List (Nat × (Nat × (Nat × List Nat)))
  pawnStore : List (Nat × (Nat × (Nat × List Nat)))
deriving DecidableEq

/-- `InterpolationManager::new`. -/
def InterpolationManager.new : InterpolationManager :=
  { entityStore := [], pawnStore := [] }

/-- Association-list lookup for interpolation stores. -/
def lookupRecord : List (Nat × (Nat × (Nat × List Nat))) → Nat →
    Option (Nat × (Nat × List Nat))
  | [], _ => none
  | (k0, v) :: rest, k => if k0 = k then some v else lookupRecord rest k

/-- Association-list insert-or-replace for interpolation stores. -/
def insertRecord : List (Nat × (Nat × (Nat × List Nat))) → Nat →
    Nat × (Nat × List Nat) → List (Nat × (Nat × (Nat × List Nat)))
  | [], k, v => [(k, v)]
  | (k0, v0) :: rest, k, v =>
    if k0 = k then (k0, v) :: rest else (k0, v0) :: insertRecord rest k v

/-- `InterpolationManager::create_interpolation`: store a typed copy of the
live entity with the current instant; a no-op when the key is absent. -/
def InterpolationManager.createInterpolation (im : InterpolationManager)
    (cem : ClientEntityManager) (key now : Nat) : InterpolationManager :=
  match cem.getLocalEntity key with
  | some existing => { im with entityStore := insertRecord im.entityStore key (now, existing) }
  | none => im

/-- `InterpolationManager::delete_interpolation`. -/
def InterpolationManager.deleteInterpolation (im : InterpolationManager)
    (key : Nat) : InterpolationManager :=
  { im with entityStore := im.entityStore.filter (fun p => p.1 != key) }

/-- `InterpolationManager::sync_interpolation`: the source body is empty,
so the state is returned unchanged. -/
def InterpolationManager.syncInterpolation (im : InterpolationManager)
    (key now : Nat) : InterpolationManager :=
  im

/-- `InterpolationManager::sync_pawn_interpolation`: the source body is
empty, so the state is returned unchanged. -/
def InterpolationManager.syncPawnInterpolation (im : InterpolationManager)
    (key now : Nat) : InterpolationManager :=
  im

/-- `set_smooth` is an empty TODO stub in the source, so
`get_interpolation` returns the stored snapshot unchanged (when both the
live entity and a record exist). -/
def InterpolationManager.getInterpolation (im : InterpolationManager)
    (cem : ClientEntityManager) (now key : Nat) : Option (Nat × List Nat) :=
  match cem.getLocalEntity key with
  | some _ =>
    match lookupRecord im.entityStore key with
    | some (_, snapshot) => some snapshot
    | none => none
  | none => none

/-- Client connection-state enum (client_connection_state.rs). -/
inductive ClientConnectionState where
  | AwaitingChallengeResponse
  | AwaitingConnectResponse
  | Connected
deriving DecidableEq

/-- Modelled from the spec: `ClientTickManager` (not under src/) holds the
wrapping u16 logical tick, the tick interval and the instant of the last
tick boundary. -/
structure ClientTickManager where
  tickInterval : Nat
  tick : Nat
  lastInstant : Nat
deriving DecidableEq

/-- Modelled from the spec: `ClientTickManager::new`. -/
def ClientTickManager.new (tickInterval : Nat) : ClientTickManager :=
  { tickInterval := tickInterval, tick := 0, lastInstant := 0 }

/-- Modelled from the spec: `set_tick` snaps to the server's value. -/
def ClientTickManager.setTick (tm : ClientTickManager) (serverTick : Nat) :
    ClientTickManager :=
  { tm with tick := serverTick % 65536 }

/-- Modelled from the spec: `update_frame` advances the tick once per
elapsed tick interval, wrapping at 2^16. -/
def ClientTickManager.updateFrame (tm : ClientTickManager) (now : Nat) :
    ClientTickManager :=
  if tm.tickInterval = 0 then tm
  else
    let steps := (now - tm.lastInstant) / tm.tickInterval
    { tm with
        tick := (tm.tick + steps) % 65536,
        lastInstant := tm.lastInstant + steps * tm.tickInterval }

/-- Results of `NaiaClient::receive` handed to the application. -/
inductive ClientEvent where
  | none
  | connection
  | disconnection
  | event (e : REvent)
  | createEntity (key : Nat)
  | deleteEntity (key : Nat)
  | updateEntity (key : Nat)
deriving DecidableEq

/-- The `Result<ClientEvent, NaiaClientError>` of `receive`, with the
error payload abstracted away. -/
inductive ReceiveOut where
  | ev (e : ClientEvent)
  | err
deriving DecidableEq

/-- One `Socket::receive()` answer: a datagram, no datagram available, or
a transport error. -/
inductive SocketRead where
  | packet (p : WirePacket)
  | empty
  | fail
deriving DecidableEq

/-- State of `NaiaClient` (naia_client.rs).  The socket, the sender and
the manifest are collaborators and not part of the state; the manifest is
passed to `receive` as an argument and the bytes put on the wire are not
modelled. -/
structure ClientState where
  connectionConfig : ConnectionConfig
  serverConnection : Option ServerConnection
  preConnectionTimestamp : Option Nat
  preConnectionDigest : Option (List Nat)
  handshakeTimer : Timer
  connectionState : ClientConnectionState
  authEvent : Option REvent
  tickManager : ClientTickManager
deriving DecidableEq

/-- The MTU budget `receive` hands to the packet writer; the spec does not
pin its value. -/
def mtuBudget : Nat := 1472

/-- Advance the tick manager at the start of `receive`. -/
def updateFrameState (st : ClientState) (now : Nat) : ClientState :=
  { st with tickManager := st.tickManager.updateFrame now }

/-- The handshake-retransmission block of `receive` (connection `None`,
handshake timer ringing): in `AwaitingChallengeResponse` record the
timestamp on first use and send a ClientChallengeRequest; in
`AwaitingConnectResponse` send a ClientConnectRequest built from the
stored timestamp and digest, whose `unwrap` panics (`none`) when either is
missing; then reset the handshake timer.  The transmitted bytes are not
modelled. -/
def handshakeSend (st : ClientState) (now : Nat) : Option ClientState :=
  match st.connectionState with
  | ClientConnectionState.AwaitingChallengeResponse =>
    let st1 :=
      if st.preConnectionTimestamp.isNone then
        { st with preConnectionTimestamp := some now }
      else st
    some { st1 with handshakeTimer := st1.handshakeTimer.reset now }
  | ClientConnectionState.AwaitingConnectResponse =>
    match st.preConnectionTimestamp, st.preConnectionDigest with
    | some _, some _ => some { st with handshakeTimer := st.handshakeTimer.reset now }
    | _, _ => none
  | ClientConnectionState.Connected =>
    some { st with handshakeTimer := st.handshakeTimer.reset now }

/-- Big-endian value of a byte list. -/
def beVal (l : List Nat) : Nat :=
  l.foldl (fun a b => a * 256 + b % 256) 0

/-- Heartbeat transmission: `internal_send_with_connection` stamps a
Heartbeat header (advancing the outgoing sequence) and `mark_sent` resets
the heartbeat timer; the bytes are not modelled. -/
def sendHeartbeat (sc : ServerConnection) (now : Nat) : ServerConnection :=
  let (conn1, _) := sc.connection.processOutgoingHeader PacketType.Heartbeat []
  { sc with connection := conn1.markSent now }

/-- The `while let Some(payload) = connection.get_outgoing_packet(..)`
send loop of `receive`: each sent packet is followed by `mark_sent`.
Every returned packet either clears the due ping or writes at least one
queued event, so the fuel `2 * queue length + 1` always suffices. -/
def sendLoop (mtu now : Nat) : Nat → ServerConnection → ServerConnection
  | 0, sc => sc
  | fuel + 1, sc =>
    match ServerConnection.getOutgoingPacket mtu now sc with
    | (some _, sc1) =>
      sendLoop mtu now fuel { sc1 with connection := sc1.connection.markSent now }
    | (none, sc1) => sc1

/-- Processing of one received datagram inside the socket loop of
`receive`.  The result is `none` for a panic, otherwise the new state plus
the output the loop ends with (`none` meaning `continue`).  With a live
connection: `mark_heard`, header processing, and Data bodies dispatched to
the managers; all packet types `continue`.  With no connection: a
ServerChallengeResponse in `AwaitingChallengeResponse` with a stored
timestamp reads the u16 server tick and the 8-byte timestamp echo
(panicking on fewer than 10 payload bytes), and when the echo equals the
stored timestamp reads exactly 32 digest bytes (panicking when fewer are
available), stores them, snaps the tick manager to the server tick and
moves to `AwaitingConnectResponse`; a ServerConnectResponse creates the
server connection, moves to `Connected` and outputs the Connection event,
with no check of the current connection state. -/
def processPacket (m : Manifest) (st : ClientState) (now : Nat) (p : WirePacket) :
    Option (ClientState × Option ReceiveOut) :=
  match st.serverConnection with
  | some sc =>
    let sc1 := { sc with connection := (sc.connection.markHeard now).processIncomingHeader p }
    match p.ptype with
    | PacketType.Data =>
      match sc1.processIncomingData m p.payload with
      | none => none
      | some sc2 => some ({ st with serverConnection := some sc2 }, none)
    | _ => some ({ st with serverConnection := some sc1 }, none)
  | none =>
    match p.ptype with
    | PacketType.ServerChallengeResponse =>
      if st.connectionState = ClientConnectionState.AwaitingChallengeResponse then
        match st.preConnectionTimestamp with
        | some myTimestamp =>
          match p.payload with
          | b0 :: b1 :: t0 :: t1 :: t2 :: t3 :: t4 :: t5 :: t6 :: t7 :: rest =>
            let serverTick := beVal [b0, b1]
            let payloadTimestamp := beVal [t0, t1, t2, t3, t4, t5, t6, t7]
            if myTimestamp = payloadTimestamp then
              if rest.length < 32 then none
              else
                some
                  ({ st with
                      preConnectionDigest := some (rest.take 32),
                      tickManager := st.tickManager.setTick serverTick,
                      connectionState := ClientConnectionState.AwaitingConnectResponse },
                   none)
            else some (st, none)
          | _ => none
        | none => some (st, none)
      else some (st, none)
    | PacketType.ServerConnectResponse =>
      some
        ({ st with
            serverConnection := some (ServerConnection.new st.connectionConfig now),
            connectionState := ClientConnectionState.Connected },
         some (ReceiveOut.ev ClientEvent.connection))
    | _ => some (st, none)

/-- The `while output.is_none()` socket loop of `receive`: drain socket
answers until an output is produced; an exhausted queue behaves as the
socket reporting that no datagram is available, which yields
`ClientEvent::None`. -/
def socketLoop (m : Manifest) (st : ClientState) (now : Nat) :
    List SocketRead → Option (ReceiveOut × ClientState × List SocketRead)
  | [] => some (ReceiveOut.ev ClientEvent.none, st, [])
  | SocketRead.empty :: rest => some (ReceiveOut.ev ClientEvent.none, st, rest)
  | SocketRead.fail :: rest => some (ReceiveOut.err, st, rest)
  | SocketRead.packet p :: rest =>
    match processPacket m st now p with
    | none => none
    | some (st1, some out) => some (out, st1, rest)
    | some (st1, none) => socketLoop m st1 now rest

/-- `NaiaClient::receive`: update the tick, then with a live connection
check the drop timer (clearing all connection state and returning
Disconnection when it fired), send a heartbeat when due, run the send
loop, and return a queued incoming event or entity message when present;
with no connection run the handshake-retransmission block when its timer
rings; finally run the socket loop.  `none` stands for a panic; the
current instant and the socket answers are explicit inputs. -/
def receive (m : Manifest) (st : ClientState) (now : Nat)
    (socket : List SocketRead) : Option (ReceiveOut × ClientState × List SocketRead) :=
  let st := updateFrameState st now
  match st.serverConnection with
  | some sc =>
    if sc.connection.shouldDrop now then
      some
        (ReceiveOut.ev ClientEvent.disconnection,
         { st with
            serverConnection := none,
            preConnectionTimestamp := none,
            preConnectionDigest := none,
            connectionState := ClientConnectionState.AwaitingChallengeResponse },
         socket)
    else
      let sc1 := if sc.connection.shouldSendHeartbeat now then sendHeartbeat sc now else sc
      let sc2 :=
        sendLoop mtuBudget now
          (2 * sc1.connection.eventManager.queued_outgoing_events.length + 1) sc1
      match sc2.connection.eventManager.popIncomingEvent with
      | (some e, em1) =>
        let sc3 := { sc2 with connection := { sc2.connection with eventManager := em1 } }
        some
          (ReceiveOut.ev (ClientEvent.event e),
           { st with serverConnection := some sc3 },
           socket)
      | (none, _) =>
        match sc2.entityManager.popIncomingMessage with
        | (some msg, cem1) =>
          let st1 := { st with serverConnection := some ({ sc2 with entityManager := cem1 }) }
          match msg with
          | ClientEntityMessage.create key =>
            some (ReceiveOut.ev (ClientEvent.createEntity key), st1, socket)
          | ClientEntityMessage.delete key =>
            some (ReceiveOut.ev (ClientEvent.deleteEntity key), st1, socket)
          | ClientEntityMessage.update key =>
            some (ReceiveOut.ev (ClientEvent.updateEntity key), st1, socket)
        | (none, _) =>
          socketLoop m { st with serverConnection := some sc2 } now socket
  | none =>
    match (if st.handshakeTimer.ringing now then handshakeSend st now else some st) with
    | none => none
    | some st1 => socketLoop m st1 now socket

/-- `NaiaClient::send_event`: queue the event on the server connection
when one exists. -/
def sendEvent (st : ClientState) (e : REvent) : ClientState :=
  match st.serverConnection with
  | some sc => { st with serverConnection := some (sc.queueEvent e) }
  | none => st

/-- A concrete manifest for witnesses: naia id 1 is a known guaranteed
event type, every other id is unknown. -/
def sampleManifest : Manifest :=
  { createEvent := fun naiaId payload =>
      if naiaId = 1 then some { naiaId := 1, payload := payload, guaranteed := true }
      else none,
    entityReadBytes := fun _ => some 1,
    entityUpdateBytes := fun _ => 1,
    applyEntityUpdate := fun _ _ diff => diff }

/-- A concrete default configuration (connection_config.rs defaults, in
abstract time units). -/
def sampleConfig : ConnectionConfig :=
  { disconnectionTimeoutDuration := 10, heartbeatInterval := 4,
    pingInterval := 1, pingSampleSize := 20 }

/-- A concrete guaranteed event. -/
def sampleGuaranteed : REvent := { naiaId := 1, payload := [7], guaranteed := true }

/-- A concrete non-guaranteed event. -/
def sampleUnreliable : REvent := { naiaId := 1, payload := [8], guaranteed := false }

/-- A concrete client with no server connection, in
`AwaitingChallengeResponse`, whose handshake timer is not ringing at small
instants. -/
def disconnectedClient : ClientState :=
  { connectionConfig := sampleConfig,
    serverConnection := none,
    preConnectionTimestamp := none,
    preConnectionDigest := none,
    handshakeTimer := { interval := 10, nextFire := 100 },
    connectionState := ClientConnectionState.AwaitingChallengeResponse,
    authEvent := none,
    tickManager := { tickInterval := 1, tick := 0, lastInstant := 0 } }

/-- Claim C10: with no server connection (`server_connection` is `None`),
`NaiaClient::send_event` is a silent no-op: the event is never queued and
the client state is unchanged. -/
theorem sendEvent_noop_without_connection (st : ClientState) (e : REvent)
    (h : st.serverConnection = none) : sendEvent st e = st := by
  unfold sendEvent
  rw [h]

/-- Witness for `sendEvent_noop_without_connection` at a concrete
disconnected client and event. -/
theorem sendEvent_noop_without_connection_witness :
    disconnectedClient.serverConnection = none ∧
    sendEvent disconnectedClient sampleGuaranteed = disconnectedClient :=
  ⟨rfl, sendEvent_noop_without_connection disconnectedClient sampleGuaranteed rfl⟩

/-- A concrete interpolation store: key 0 carries anchor instant 5 and a
snapshot of entity value (1, [7]). -/
def sampleInterp : InterpolationManager :=
  { entityStore := [(0, (5, (1, [7])))], pawnStore := [(0, (5, (1, [7])))] }

/-- Claim C9, divergence of the code from the claim: the source bodies of
`sync_interpolation` and `sync_pawn_interpolation` are empty, so at the
failing input (key 0 present with anchor instant 5, now = 6) the stored
record keeps anchor 5 instead of being refreshed to 6: the state is
returned unchanged. -/
theorem syncInterpolation_is_a_stub :
    InterpolationManager.syncInterpolation sampleInterp 0 6 = sampleInterp ∧
    InterpolationManager.syncPawnInterpolation sampleInterp 0 6 = sampleInterp ∧
    lookupRecord sampleInterp.entityStore 0 = some (5, (1, [7])) ∧
    lookupRecord sampleInterp.pawnStore 0 = some (5, (1, [7])) ∧
    (5 : Nat) ≠ 6 :=
  ⟨rfl, rfl, rfl, rfl, by decide⟩

/-- Claim C4, divergence of the code from the claim:
`EventManager::process_data` is not total on arbitrary input bytes.  On
the body `[1]` (declared event count 1, then nothing) the u16 naia-id read
panics (`expect`), and on the body `[1, 0, 1, 5]` (count 1, naia id 1,
declared payload length 5, no payload) the slice
`buffer[start..end]` runs past the end of the buffer and panics; both are
`none` in the model rather than a silently dropped remainder. -/
theorem processData_panics_on_truncated_input :
    EventManager.processData sampleManifest EventManager.new
      { buffer := [1], cursor := 0 } = none ∧
    EventManager.processData sampleManifest EventManager.new
      { buffer := [1, 0, 1, 5], cursor := 0 } = none :=
  ⟨rfl, rfl⟩

/-- Whether the bucket of key `s`, if present, is non-empty.  Every
reachable `sent_events` map satisfies this for every key: buckets are only
created by `pop_outgoing_event`, which immediately pushes an event, and
`unpop_outgoing_event` removes a bucket as soon as it becomes empty. -/
def bucketNonempty (sent : List (Nat × List REvent)) (s : Nat) : Bool :=
  match lookupBucket sent s with
  | some l => !l.isEmpty
  | none => true

/-- Popping the freshly pushed trailing entry restores the map, provided a
pre-existing bucket of the key was non-empty. -/
theorem bucketPopLast_bucketPush (sent : List (Nat × List REvent)) (s : Nat)
    (e : REvent) (h : bucketNonempty sent s = true) :
    bucketPopLast (bucketPush sent s e) s = sent := by
  induction sent with
  | nil => simp [bucketPush, bucketPopLast]
  | cons p rest ih =>
    obtain ⟨k0, v⟩ := p
    by_cases hk : k0 = s
    · subst hk
      simp only [bucketNonempty, lookupBucket, if_pos rfl] at h
      simp at h
      simp [bucketPush, bucketPopLast, List.dropLast_concat, List.isEmpty_iff, h]
    · simp only [bucketPush, if_neg hk, bucketPopLast, if_neg hk]
      simp only [bucketNonempty, lookupBucket, if_neg hk] at h
      rw [ih h]

/-- Claim C3: on a non-empty outgoing queue, `pop_outgoing_event(s)`
followed by `unpop_outgoing_event(s, e)` with the popped event restores
the EventManager state (outgoing queue, incoming queue and `sent_events`)
exactly, for guaranteed and non-guaranteed events alike.  The
`bucketNonempty` hypothesis holds in every reachable state. -/
theorem pop_then_unpop_restores_state (em : EventManager) (s : Nat)
    (hq : em.queued_outgoing_events ≠ [])
    (hwf : bucketNonempty em.sent_events s = true) :
    ∃ e em1, em.popOutgoingEvent s = (some e, em1) ∧
      em1.unpopOutgoingEvent s e = em := by
  obtain ⟨q, inc, sent⟩ := em
  match hq2 : q with
  | [] => exact absurd rfl hq
  | e :: rest =>
    refine ⟨e, ?_⟩
    by_cases hg : e.guaranteed
    · refine ⟨{ queued_outgoing_events := rest, queued_incoming_events := inc,
                sent_events := bucketPush sent s e }, ?_, ?_⟩
      · simp [EventManager.popOutgoingEvent, hg]
      · simp only [EventManager.unpopOutgoingEvent, hg, if_pos]
        simp [bucketPopLast_bucketPush sent s e hwf]
    · refine ⟨{ queued_outgoing_events := rest, queued_incoming_events := inc,
                sent_events := sent }, ?_, ?_⟩
      · simp [EventManager.popOutgoingEvent, hg]
      · simp [EventManager.unpopOutgoingEvent, hg]

/-- Witness for `pop_then_unpop_restores_state`: a manager holding a
guaranteed event at the queue front and an in-flight bucket for packet 5. -/
theorem pop_then_unpop_restores_state_witness :
    ({ queued_outgoing_events := [sampleGuaranteed, sampleUnreliable],
       queued_incoming_events := [],
       sent_events := [(5, [sampleGuaranteed])] } : EventManager).queued_outgoing_events ≠ [] ∧
    bucketNonempty
      ({ queued_outgoing_events := [sampleGuaranteed, sampleUnreliable],
         queued_incoming_events := [],
         sent_events := [(5, [sampleGuaranteed])] } : EventManager).sent_events 5 = true ∧
    ∃ e em1,
      ({ queued_outgoing_events := [sampleGuaranteed, sampleUnreliable],
         queued_incoming_events := [],
         sent_events := [(5, [sampleGuaranteed])] } : EventManager).popOutgoingEvent 5 =
        (some e, em1) ∧
      em1.unpopOutgoingEvent 5 e =
        { queued_outgoing_events := [sampleGuaranteed, sampleUnreliable],
          queued_incoming_events := [],
          sent_events := [(5, [sampleGuaranteed])] } :=
  ⟨by decide, by decide,
   pop_then_unpop_restores_state
     { queued_outgoing_events := [sampleGuaranteed, sampleUnreliable],
       queued_incoming_events := [],
       sent_events := [(5, [sampleGuaranteed])] } 5 (by decide) (by decide)⟩

/-- Looking the removed key up finds nothing. -/
theorem lookupBucket_removeBucket_self (l : List (Nat × List REvent)) (k : Nat) :
    lookupBucket (removeBucket l k) k = none := by
  induction l with
  | nil => rfl
  | cons p rest ih =>
    obtain ⟨k0, v⟩ := p
    simp only [removeBucket, List.filter_cons] at ih ⊢
    by_cases hk : k0 = k
    · subst hk
      simpa using ih
    · simpa [bne_iff_ne, hk, lookupBucket] using ih

/-- Removal of one key leaves every other key's bucket unchanged. -/
theorem lookupBucket_removeBucket_other (l : List (Nat × List REvent)) (k j : Nat)
    (hj : j ≠ k) : lookupBucket (removeBucket l k) j = lookupBucket l j := by
  induction l with
  | nil => rfl
  | cons p rest ih =>
    obtain ⟨k0, v⟩ := p
    simp only [removeBucket, List.filter_cons] at ih ⊢
    by_cases hk : k0 = k
    · subst hk
      have hkj : ¬ k0 = j := fun hx => hj hx.symm
      simpa [lookupBucket, hkj] using ih
    · by_cases hj0 : k0 = j
      · subst hj0
        simp [bne_iff_ne, hk, lookupBucket]
      · simpa [bne_iff_ne, hk, lookupBucket, hj0] using ih

/-- Claim C5: `notify_packet_dropped(s)` appends the events of the bucket
of `s`, in stored order, to the tail of the outgoing queue and removes the
bucket; every other bucket, the incoming queue, and (when `s` has no
bucket) the whole state are unchanged. -/
theorem notifyPacketDropped_spec (em : EventManager) (s : Nat) :
    (∀ l, lookupBucket em.sent_events s = some l →
      (em.notifyPacketDropped s).queued_outgoing_events =
          em.queued_outgoing_events ++ l ∧
      (em.notifyPacketDropped s).queued_incoming_events =
          em.queued_incoming_events ∧
      lookupBucket (em.notifyPacketDropped s).sent_events s = none ∧
      (∀ j, j ≠ s → lookupBucket (em.notifyPacketDropped s).sent_events j =
          lookupBucket em.sent_events j)) ∧
    (lookupBucket em.sent_events s = none → em.notifyPacketDropped s = em) := by
  constructor
  · intro l hl
    refine ⟨?_, ?_, ?_, ?_⟩ <;> simp only [EventManager.notifyPacketDropped, hl]
    · exact lookupBucket_removeBucket_self _ _
    · intro j hj
      exact lookupBucket_removeBucket_other _ _ _ hj
  · intro hl
    simp [EventManager.notifyPacketDropped, hl]

/-- Witness for `notifyPacketDropped_spec`: a manager with a bucket for
packet 5 and one without. -/
theorem notifyPacketDropped_spec_witness :
    lookupBucket
      ({ queued_outgoing_events := [sampleUnreliable],
         queued_incoming_events := [],
         sent_events := [(5, [sampleGuaranteed])] } : EventManager).sent_events 5 =
      some [sampleGuaranteed] ∧
    (EventManager.notifyPacketDropped
      { queued_outgoing_events := [sampleUnreliable],
        queued_incoming_events := [],
        sent_events := [(5, [sampleGuaranteed])] } 5).queued_outgoing_events =
      [sampleUnreliable] ++ [sampleGuaranteed] :=
  ⟨by decide,
   ((notifyPacketDropped_spec
     { queued_outgoing_events := [sampleUnreliable],
       queued_incoming_events := [],
       sent_events := [(5, [sampleGuaranteed])] } 5).1 [sampleGuaranteed] (by decide)).1⟩

/-- Every event referenced by any bucket of a `sent_events` map is
guaranteed. -/
def SentOnlyGuaranteed (sent : List (Nat × List REvent)) : Prop :=
  ∀ p ∈ sent, ∀ e ∈ p.2, e.guaranteed = true

/-- Pushing a guaranteed event preserves the invariant. -/
theorem sentOnlyGuaranteed_bucketPush (sent : List (Nat × List REvent))
    (s : Nat) (e : REvent) (h : SentOnlyGuaranteed sent)
    (hg : e.guaranteed = true) : SentOnlyGuaranteed (bucketPush sent s e) := by
  induction sent with
  | nil =>
    intro p hp e1 he1
    simp [bucketPush] at hp
    subst hp
    simp at he1
    subst he1
    exact hg
  | cons q rest ih =>
    obtain ⟨k0, v⟩ := q
    by_cases hk : k0 = s
    · subst hk
      intro p hp e1 he1
      simp [bucketPush] at hp
      rcases hp with hp | hp
      · subst hp
        simp at he1
        rcases he1 with he1 | he1
        · exact h (k0, v) (by simp) e1 he1
        · subst he1
          exact hg
      · exact h p (by simp [hp]) e1 he1
    · intro p hp e1 he1
      simp [bucketPush, hk] at hp
      rcases hp with hp | hp
      · subst hp
        exact h (k0, v) (by simp) e1 he1
      · exact ih (fun q hq => h q (by simp [hq])) p hp e1 he1

/-- Popping a bucket's trailing entry preserves the invariant. -/
theorem sentOnlyGuaranteed_bucketPopLast (sent : List (Nat × List REvent))
    (s : Nat) (h : SentOnlyGuaranteed sent) :
    SentOnlyGuaranteed (bucketPopLast sent s) := by
  induction sent with
  | nil => exact h
  | cons q rest ih =>
    obtain ⟨k0, v⟩ := q
    by_cases hk : k0 = s
    · subst hk
      intro p hp e1 he1
      simp only [bucketPopLast, if_pos rfl] at hp
      by_cases hv : v.dropLast.isEmpty
      · rw [if_pos hv] at hp
        simp at hp
        exact h p (by simp [hp]) e1 he1
      · rw [if_neg hv] at hp
        rcases List.mem_cons.mp hp with hp | hp
        · subst hp
          exact h (k0, v) (by simp) e1 (List.dropLast_subset v he1)
        · exact h p (by simp [hp]) e1 he1
    · intro p hp e1 he1
      simp only [bucketPopLast, if_neg hk] at hp
      rcases List.mem_cons.mp hp with hp | hp
      · subst hp
        exact h (k0, v) (by simp) e1 he1
      · exact ih (fun q hq => h q (by simp [hq])) p hp e1 he1

/-- Removing a bucket preserves the invariant. -/
theorem sentOnlyGuaranteed_removeBucket (sent : List (Nat × List REvent))
    (s : Nat) (h : SentOnlyGuaranteed sent) :
    SentOnlyGuaranteed (removeBucket sent s) := by
  intro p hp
  exact h p (List.mem_of_mem_filter hp)

/-- The per-event loop of `process_data` never touches `sent_events`. -/
theorem processEventsLoop_sent_events (m : Manifest) :
    ∀ (n : Nat) (em : EventManager) (r : PacketReader)
      (em1 : EventManager) (r1 : PacketReader),
      processEventsLoop m n em r = some (em1, r1) →
      em1.sent_events = em.sent_events := by
  intro n
  induction n with
  | zero =>
    intro em r em1 r1 hrun
    simp [processEventsLoop] at hrun
    rw [hrun.1.symm]
  | succ k ih =>
    intro em r em1 r1 hrun
    simp only [processEventsLoop] at hrun
    rcases h16 : r.readU16BE with _ | ⟨naiaId, ra⟩ <;> simp only [h16] at hrun
    · exact Option.noConfusion hrun
    · rcases h8 : ra.readU8 with _ | ⟨len, rb⟩ <;> simp only [h8] at hrun
      · exact Option.noConfusion hrun
      · by_cases hend : rb.buffer.length < rb.cursor + len
        · rw [if_pos hend] at hrun
          exact Option.noConfusion hrun
        · rw [if_neg hend] at hrun
          rcases hev : m.createEvent naiaId ((rb.buffer.drop rb.cursor).take len)
              with _ | newEvent <;> simp only [hev] at hrun
          · exact ih _ _ _ _ hrun
          · have hs := ih _ _ _ _ hrun
            simpa using hs

/-- `process_data` never touches `sent_events`. -/
theorem processData_sent_events (m : Manifest) (em : EventManager)
    (r : PacketReader) (em1 : EventManager) (r1 : PacketReader)
    (hrun : em.processData m r = some (em1, r1)) :
    em1.sent_events = em.sent_events := by
  simp only [EventManager.processData] at hrun
  rcases h8 : r.readU8 with _ | ⟨count, ra⟩
  · rw [h8] at hrun
    exact absurd hrun (by simp)
  · rw [h8] at hrun
    exact processEventsLoop_sent_events m count em ra em1 r1 hrun

/-- Claim C6: the `sent_events` table references only guaranteed events,
and this is preserved by every EventManager operation; moreover a
non-guaranteed popped event is never entered into `sent_events`. -/
theorem sent_events_only_guaranteed (em : EventManager) (e : REvent) (s : Nat)
    (h : SentOnlyGuaranteed em.sent_events) :
    SentOnlyGuaranteed (em.queueOutgoingEvent e).sent_events ∧
    SentOnlyGuaranteed (em.popOutgoingEvent s).2.sent_events ∧
    SentOnlyGuaranteed (em.unpopOutgoingEvent s e).sent_events ∧
    SentOnlyGuaranteed (em.notifyPacketDelivered s).sent_events ∧
    SentOnlyGuaranteed (em.notifyPacketDropped s).sent_events ∧
    (∀ (m : Manifest) (r : PacketReader) (em1 : EventManager) (r1 : PacketReader),
      em.processData m r = some (em1, r1) → SentOnlyGuaranteed em1.sent_events) ∧
    (∀ e1, (em.popOutgoingEvent s).1 = some e1 → e1.guaranteed = false →
      (em.popOutgoingEvent s).2.sent_events = em.sent_events) := by
  refine ⟨h, ?_, ?_, ?_, ?_, ?_, ?_⟩
  · rcases hq : em.queued_outgoing_events with _ | ⟨hd, tl⟩
    · simp [EventManager.popOutgoingEvent, hq]
      exact h
    · by_cases hg : hd.guaranteed
      · simp [EventManager.popOutgoingEvent, hq, hg]
        exact sentOnlyGuaranteed_bucketPush _ _ _ h hg
      · simp [EventManager.popOutgoingEvent, hq, hg]
        exact h
  · by_cases hg : e.guaranteed
    · simp [EventManager.unpopOutgoingEvent, hg]
      exact sentOnlyGuaranteed_bucketPopLast _ _ h
    · simp [EventManager.unpopOutgoingEvent, hg]
      exact h
  · exact sentOnlyGuaranteed_removeBucket _ _ h
  · rcases hl : lookupBucket em.sent_events s with _ | l
    · simp [EventManager.notifyPacketDropped, hl]
      exact h
    · simp [EventManager.notifyPacketDropped, hl]
      exact sentOnlyGuaranteed_removeBucket _ _ h
  · intro m r em1 r1 hrun
    rw [processData_sent_events m em r em1 r1 hrun]
    exact h
  · intro e1 hpop hng
    rcases hq : em.queued_outgoing_events with _ | ⟨hd, tl⟩
    · simp [EventManager.popOutgoingEvent, hq] at hpop
    · by_cases hg : hd.guaranteed
      · simp [EventManager.popOutgoingEvent, hq, hg] at hpop
        rw [hpop] at hg
        rw [hg] at hng
        exact absurd hng (by simp)
      · simp [EventManager.popOutgoingEvent, hq, hg]

instance (sent : List (Nat × List REvent)) : Decidable (SentOnlyGuaranteed sent) := by
  unfold SentOnlyGuaranteed
  infer_instance

/-- Witness for `sent_events_only_guaranteed`: a manager holding one
guaranteed in-flight event, probed at packet index 3 with a non-guaranteed
event. -/
theorem sent_events_only_guaranteed_witness :
    SentOnlyGuaranteed
      ({ queued_outgoing_events := [sampleGuaranteed],
         queued_incoming_events := [],
         sent_events := [(5, [sampleGuaranteed])] } : EventManager).sent_events ∧
    SentOnlyGuaranteed
      (({ queued_outgoing_events := [sampleGuaranteed],
          queued_incoming_events := [],
          sent_events := [(5, [sampleGuaranteed])] } : EventManager).popOutgoingEvent 3).2.sent_events :=
  ⟨by decide,
   (sent_events_only_guaranteed
     { queued_outgoing_events := [sampleGuaranteed],
       queued_incoming_events := [],
       sent_events := [(5, [sampleGuaranteed])] } sampleUnreliable 3 (by decide)).2.1⟩

/-- Updating the tick manager leaves the connection untouched. -/
theorem updateFrameState_serverConnection (st : ClientState) (now : Nat) :
    (updateFrameState st now).serverConnection = st.serverConnection := rfl

/-- Output of one socket-loop packet step is never Disconnection: with a
live connection every packet type continues the loop, and with none only
ServerConnectResponse produces an output, the Connection event. -/
theorem processPacket_out_not_disconnection (m : Manifest) (st : ClientState)
    (now : Nat) (p : WirePacket) (st1 : ClientState) (out : ReceiveOut)
    (h : processPacket m st now p = some (st1, some out)) :
    out ≠ ReceiveOut.ev ClientEvent.disconnection := by
  obtain ⟨pt, pseq, pack, pbits, ppl⟩ := p
  rcases hsc : st.serverConnection with _ | sc <;>
    simp only [processPacket, hsc] at h
  · -- no server connection
    cases pt <;> try simp at h
    case ServerChallengeResponse =>
      repeat' split at h
      all_goals simp at h
    case ServerConnectResponse =>
      rcases h with ⟨h1, h2⟩
      first
        | (rw [← h2]; simp)
        | (rw [h2]; simp)
        | simp [h2]
  · -- live server connection: every packet type continues the loop
    rcases hd : ServerConnection.processIncomingData m
        { connection := (sc.connection.markHeard now).processIncomingHeader
            { ptype := pt, seq := pseq, ackSeq := pack, ackBits := pbits, payload := ppl },
          entityManager := sc.entityManager, pingManager := sc.pingManager } ppl
      with _ | sc2 <;>
      cases pt <;> try simp only [hd] at h <;> simp at h

/-- The socket loop of `receive` never returns the Disconnection event. -/
theorem socketLoop_not_disconnection (m : Manifest) (now : Nat) :
    ∀ (socket : List SocketRead) (st : ClientState) (out : ReceiveOut)
      (st1 : ClientState) (rest : List SocketRead),
      socketLoop m st now socket = some (out, st1, rest) →
      out ≠ ReceiveOut.ev ClientEvent.disconnection := by
  intro socket
  induction socket with
  | nil =>
    intro st out st1 rest h
    simp [socketLoop] at h
    rw [← h.1]
    simp
  | cons sr tail ih =>
    intro st out st1 rest h
    cases sr with
    | empty =>
      simp [socketLoop] at h
      rw [← h.1]
      simp
    | fail =>
      simp [socketLoop] at h
      rw [← h.1]
      simp
    | packet p =>
      simp only [socketLoop] at h
      rcases hpp : processPacket m st now p with _ | ⟨st2, _ | o⟩ <;>
        simp only [hpp] at h
      · exact Option.noConfusion h
      · exact ih _ _ _ _ h
      · simp at h
        rw [← h.1]
        exact processPacket_out_not_disconnection m st now p st2 o hpp

/-- Claim C7: when the drop timer of the live connection has fired,
`receive` returns Disconnection and resets the connection state (clearing
the server connection, the pre-connection timestamp and digest, and
returning to `AwaitingChallengeResponse`), and from any state without a
server connection `receive` can never return Disconnection again, so the
event is reported exactly once until a new connection times out. -/
theorem timeout_disconnects_exactly_once (m : Manifest) (st : ClientState)
    (sc : ServerConnection) (now : Nat) (socket : List SocketRead)
    (hconn : st.serverConnection = some sc)
    (hdrop : sc.connection.shouldDrop now = true) :
    receive m st now socket =
      some (ReceiveOut.ev ClientEvent.disconnection,
        { updateFrameState st now with
            serverConnection := none,
            preConnectionTimestamp := none,
            preConnectionDigest := none,
            connectionState := ClientConnectionState.AwaitingChallengeResponse },
        socket) ∧
    (∀ (st2 : ClientState) (now2 : Nat) (socket2 : List SocketRead)
       (out : ReceiveOut) (st3 : ClientState) (rest : List SocketRead),
       st2.serverConnection = none →
       receive m st2 now2 socket2 = some (out, st3, rest) →
       out ≠ ReceiveOut.ev ClientEvent.disconnection) := by
  constructor
  · have hconn2 : (updateFrameState st now).serverConnection = some sc := hconn
    simp only [receive, hconn2, hdrop, if_true]
  · intro st2 now2 socket2 out st3 rest h0 hrun
    have h0b : (updateFrameState st2 now2).serverConnection = none := h0
    simp only [receive, h0b] at hrun
    by_cases hr : (updateFrameState st2 now2).handshakeTimer.ringing now2 = true
    · rw [if_pos hr] at hrun
      rcases hhs : handshakeSend (updateFrameState st2 now2) now2 with _ | st4 <;>
        simp only [hhs] at hrun
      · exact Option.noConfusion hrun
      · exact socketLoop_not_disconnection m now2 socket2 st4 out st3 rest hrun
    · rw [if_neg hr] at hrun
      exact socketLoop_not_disconnection m now2 socket2 _ out st3 rest hrun

/-- A concrete connected client whose drop timer (armed at instant 0 with
the 10-unit default timeout) has fired by instant 20. -/
def connectedClient : ClientState :=
  { connectionConfig := sampleConfig,
    serverConnection := some (ServerConnection.new sampleConfig 0),
    preConnectionTimestamp := some 42,
    preConnectionDigest := some [0],
    handshakeTimer := { interval := 10, nextFire := 1000 },
    connectionState := ClientConnectionState.Connected,
    authEvent := none,
    tickManager := { tickInterval := 1, tick := 0, lastInstant := 0 } }

/-- Witness for `timeout_disconnects_exactly_once` at instant 20 with an
empty socket. -/
theorem timeout_disconnects_exactly_once_witness :
    connectedClient.serverConnection = some (ServerConnection.new sampleConfig 0) ∧
    (ServerConnection.new sampleConfig 0).connection.shouldDrop 20 = true ∧
    receive sampleManifest connectedClient 20 [] =
      some (ReceiveOut.ev ClientEvent.disconnection,
        { updateFrameState connectedClient 20 with
            serverConnection := none,
            preConnectionTimestamp := none,
            preConnectionDigest := none,
            connectionState := ClientConnectionState.AwaitingChallengeResponse },
        []) :=
  ⟨rfl, by decide,
   (timeout_disconnects_exactly_once sampleManifest connectedClient
     (ServerConnection.new sampleConfig 0) 20 [] rfl (by decide)).1⟩

/-- A ServerConnectResponse packet with empty body. -/
def screspPacket : WirePacket :=
  { ptype := PacketType.ServerConnectResponse, seq := 0, ackSeq := 0,
    ackBits := 0, payload := [] }

/-- Claim C1, counterexample: from the concrete reachable state with
`connection_state = AwaitingChallengeResponse` and no server connection, a
single ServerConnectResponse datagram makes `receive` emit the Connection
event and enter the Connected state: the transition is not guarded by
`AwaitingConnectResponse`. -/
theorem connected_reached_from_awaitingChallenge :
    disconnectedClient.connectionState =
      ClientConnectionState.AwaitingChallengeResponse ∧
    disconnectedClient.serverConnection = none ∧
    (receive sampleManifest disconnectedClient 0 [SocketRead.packet screspPacket]).map
        (fun res => (res.1, res.2.1.connectionState)) =
      some (ReceiveOut.ev ClientEvent.connection, ClientConnectionState.Connected) :=
  ⟨rfl, rfl, by decide⟩

/-- Claim C1 as amended: the handshake state machine accepts a
ServerConnectResponse whenever `server_connection` is `None`, with no
check of the prior `connection_state`; `receive` then creates the server
connection, moves to Connected and emits the Connection event, also when
the prior state is `AwaitingChallengeResponse`. -/
theorem connectResponse_accepted_in_any_state (m : Manifest) (st : ClientState)
    (now seq aseq abits : Nat) (body : List Nat)
    (hconn : st.serverConnection = none)
    (hquiet : st.handshakeTimer.ringing now = false) :
    receive m st now
        [SocketRead.packet
          { ptype := PacketType.ServerConnectResponse, seq := seq, ackSeq := aseq,
            ackBits := abits, payload := body }] =
      some (ReceiveOut.ev ClientEvent.connection,
        { updateFrameState st now with
            serverConnection := some (ServerConnection.new st.connectionConfig now),
            connectionState := ClientConnectionState.Connected },
        []) := by
  have hconn2 : (updateFrameState st now).serverConnection = none := hconn
  have hq2 : (updateFrameState st now).handshakeTimer.ringing now = false := hquiet
  simp only [receive, hconn2, hq2, Bool.false_eq_true, if_false]
  simp only [socketLoop, processPacket, hconn2]
  rfl

/-- Witness for `connectResponse_accepted_in_any_state` at the concrete
disconnected client. -/
theorem connectResponse_accepted_in_any_state_witness :
    disconnectedClient.serverConnection = none ∧
    disconnectedClient.handshakeTimer.ringing 0 = false ∧
    receive sampleManifest disconnectedClient 0 [SocketRead.packet screspPacket] =
      some (ReceiveOut.ev ClientEvent.connection,
        { updateFrameState disconnectedClient 0 with
            serverConnection := some (ServerConnection.new disconnectedClient.connectionConfig 0),
            connectionState := ClientConnectionState.Connected },
        []) :=
  ⟨rfl, by decide,
   connectResponse_accepted_in_any_state sampleManifest disconnectedClient 0 0 0 0 []
     rfl (by decide)⟩

/-- In `AwaitingChallengeResponse` with a stored timestamp, the
handshake-retransmission block only resets the handshake timer. -/
theorem handshakeSend_challenge_state (st : ClientState) (now myT : Nat)
    (hstate : st.connectionState = ClientConnectionState.AwaitingChallengeResponse)
    (hts : st.preConnectionTimestamp = some myT) :
    handshakeSend st now =
      some
        { connectionConfig := st.connectionConfig,
          serverConnection := st.serverConnection,
          preConnectionTimestamp := st.preConnectionTimestamp,
          preConnectionDigest := st.preConnectionDigest,
          handshakeTimer := st.handshakeTimer.reset now,
          connectionState := st.connectionState,
          authEvent := st.authEvent,
          tickManager := st.tickManager } := by
  simp [handshakeSend, hstate, hts]

/-- Packet-level behaviour of a ServerChallengeResponse in
`AwaitingChallengeResponse` with stored timestamp `myT`: a mismatching
echo leaves the state unchanged, a matching echo with at least 32
remaining bytes stores the 32-byte digest, snaps the tick and moves to
`AwaitingConnectResponse`; in both cases the loop continues. -/
theorem processPacket_scr (m : Manifest) (st : ClientState)
    (now myT seq aseq abits b0 b1 t0 t1 t2 t3 t4 t5 t6 t7 : Nat) (rest : List Nat)
    (hconn : st.serverConnection = none)
    (hstate : st.connectionState = ClientConnectionState.AwaitingChallengeResponse)
    (hts : st.preConnectionTimestamp = some myT) :
    (beVal [t0, t1, t2, t3, t4, t5, t6, t7] ≠ myT →
      processPacket m st now
        { ptype := PacketType.ServerChallengeResponse, seq := seq, ackSeq := aseq,
          ackBits := abits,
          payload := b0 :: b1 :: t0 :: t1 :: t2 :: t3 :: t4 :: t5 :: t6 :: t7 :: rest } =
        some (st, none)) ∧
    (beVal [t0, t1, t2, t3, t4, t5, t6, t7] = myT → 32 ≤ rest.length →
      processPacket m st now
        { ptype := PacketType.ServerChallengeResponse, seq := seq, ackSeq := aseq,
          ackBits := abits,
          payload := b0 :: b1 :: t0 :: t1 :: t2 :: t3 :: t4 :: t5 :: t6 :: t7 :: rest } =
        some
          ({ st with
              preConnectionDigest := some (rest.take 32),
              tickManager := st.tickManager.setTick (beVal [b0, b1]),
              connectionState := ClientConnectionState.AwaitingConnectResponse },
           none)) := by
  constructor
  · intro hne
    have hne2 : ¬ (myT = beVal [t0, t1, t2, t3, t4, t5, t6, t7]) :=
      fun hx => hne hx.symm
    simp [processPacket, hconn, hstate, hts, hne2]
  · intro heq h32
    have h1 : myT = beVal [t0, t1, t2, t3, t4, t5, t6, t7] := heq.symm
    have h2 : ¬ (rest.length < 32) := not_lt.mpr h32
    simp [processPacket, hconn, hstate, hts, h2, h1]

/-- Socket-loop behaviour of a single ServerChallengeResponse datagram. -/
theorem socketLoop_scr (m : Manifest) (u1 : ClientState)
    (now myT seq aseq abits b0 b1 t0 t1 t2 t3 t4 t5 t6 t7 : Nat) (rest : List Nat)
    (hconn : u1.serverConnection = none)
    (hstate : u1.connectionState = ClientConnectionState.AwaitingChallengeResponse)
    (hts : u1.preConnectionTimestamp = some myT) :
    (beVal [t0, t1, t2, t3, t4, t5, t6, t7] ≠ myT →
      socketLoop m u1 now
        [SocketRead.packet
          { ptype := PacketType.ServerChallengeResponse, seq := seq, ackSeq := aseq,
            ackBits := abits,
            payload := b0 :: b1 :: t0 :: t1 :: t2 :: t3 :: t4 :: t5 :: t6 :: t7 :: rest }] =
        some (ReceiveOut.ev ClientEvent.none, u1, [])) ∧
    (beVal [t0, t1, t2, t3, t4, t5, t6, t7] = myT → 32 ≤ rest.length →
      socketLoop m u1 now
        [SocketRead.packet
          { ptype := PacketType.ServerChallengeResponse, seq := seq, ackSeq := aseq,
            ackBits := abits,
            payload := b0 :: b1 :: t0 :: t1 :: t2 :: t3 :: t4 :: t5 :: t6 :: t7 :: rest }] =
        some (ReceiveOut.ev ClientEvent.none,
          { u1 with
              preConnectionDigest := some (rest.take 32),
              tickManager := u1.tickManager.setTick (beVal [b0, b1]),
              connectionState := ClientConnectionState.AwaitingConnectResponse },
          [])) := by
  constructor
  · intro hne
    have hp := (processPacket_scr m u1 now myT seq aseq abits b0 b1 t0 t1 t2 t3 t4 t5 t6 t7
      rest hconn hstate hts).1 hne
    simp [socketLoop, hp]
  · intro heq h32
    have hp := (processPacket_scr m u1 now myT seq aseq abits b0 b1 t0 t1 t2 t3 t4 t5 t6 t7
      rest hconn hstate hts).2 heq h32
    simp [socketLoop, hp]

/-- Claim C2: in `AwaitingChallengeResponse` with stored challenge
timestamp `myT`, a ServerChallengeResponse whose echoed timestamp differs
from `myT` leaves the handshake state (connection state, stored timestamp,
digest, absence of a connection) unchanged, while a matching echo stores
exactly the 32 digest bytes following the tick and timestamp, snaps the
tick manager to the received server tick and moves to
`AwaitingConnectResponse`. -/
theorem challengeResponse_spec (m : Manifest) (st : ClientState)
    (now myT seq aseq abits b0 b1 t0 t1 t2 t3 t4 t5 t6 t7 : Nat) (rest : List Nat)
    (hconn : st.serverConnection = none)
    (hstate : st.connectionState = ClientConnectionState.AwaitingChallengeResponse)
    (hts : st.preConnectionTimestamp = some myT) :
    (beVal [t0, t1, t2, t3, t4, t5, t6, t7] ≠ myT →
      ∃ st1, receive m st now
          [SocketRead.packet
            { ptype := PacketType.ServerChallengeResponse, seq := seq, ackSeq := aseq,
              ackBits := abits,
              payload := b0 :: b1 :: t0 :: t1 :: t2 :: t3 :: t4 :: t5 :: t6 :: t7 :: rest }] =
          some (ReceiveOut.ev ClientEvent.none, st1, []) ∧
        st1.connectionState = ClientConnectionState.AwaitingChallengeResponse ∧
        st1.preConnectionDigest = st.preConnectionDigest ∧
        st1.preConnectionTimestamp = some myT ∧
        st1.serverConnection = none ∧
        st1.tickManager = st.tickManager.updateFrame now) ∧
    (beVal [t0, t1, t2, t3, t4, t5, t6, t7] = myT → 32 ≤ rest.length →
      ∃ st1, receive m st now
          [SocketRead.packet
            { ptype := PacketType.ServerChallengeResponse, seq := seq, ackSeq := aseq,
              ackBits := abits,
              payload := b0 :: b1 :: t0 :: t1 :: t2 :: t3 :: t4 :: t5 :: t6 :: t7 :: rest }] =
          some (ReceiveOut.ev ClientEvent.none, st1, []) ∧
        st1.connectionState = ClientConnectionState.AwaitingConnectResponse ∧
        st1.preConnectionDigest = some (rest.take 32) ∧
        (rest.take 32).length = 32 ∧
        st1.tickManager.tick = beVal [b0, b1] % 65536 ∧
        st1.serverConnection = none ∧
        st1.preConnectionTimestamp = some myT) := by
  have hu_conn : (updateFrameState st now).serverConnection = none := hconn
  have hu_state : (updateFrameState st now).connectionState =
      ClientConnectionState.AwaitingChallengeResponse := hstate
  have hu_ts : (updateFrameState st now).preConnectionTimestamp = some myT := hts
  by_cases hr : (updateFrameState st now).handshakeTimer.ringing now = true
  · have hhs := handshakeSend_challenge_state (updateFrameState st now) now myT hu_state hu_ts
    have hrec : receive m st now
        [SocketRead.packet
          { ptype := PacketType.ServerChallengeResponse, seq := seq, ackSeq := aseq,
            ackBits := abits,
            payload := b0 :: b1 :: t0 :: t1 :: t2 :: t3 :: t4 :: t5 :: t6 :: t7 :: rest }] =
        socketLoop m
          { connectionConfig := (updateFrameState st now).connectionConfig,
            serverConnection := none,
            preConnectionTimestamp := (updateFrameState st now).preConnectionTimestamp,
            preConnectionDigest := (updateFrameState st now).preConnectionDigest,
            handshakeTimer := (updateFrameState st now).handshakeTimer.reset now,
            connectionState := (updateFrameState st now).connectionState,
            authEvent := (updateFrameState st now).authEvent,
            tickManager := (updateFrameState st now).tickManager } now
          [SocketRead.packet
            { ptype := PacketType.ServerChallengeResponse, seq := seq, ackSeq := aseq,
              ackBits := abits,
              payload := b0 :: b1 :: t0 :: t1 :: t2 :: t3 :: t4 :: t5 :: t6 :: t7 :: rest }] := by
      simp only [receive, hu_conn, hr, if_true, hhs]
    have hsl := socketLoop_scr m
      { connectionConfig := (updateFrameState st now).connectionConfig,
        serverConnection := none,
        preConnectionTimestamp := (updateFrameState st now).preConnectionTimestamp,
        preConnectionDigest := (updateFrameState st now).preConnectionDigest,
        handshakeTimer := (updateFrameState st now).handshakeTimer.reset now,
        connectionState := (updateFrameState st now).connectionState,
        authEvent := (updateFrameState st now).authEvent,
        tickManager := (updateFrameState st now).tickManager }
      now myT seq aseq abits b0 b1 t0 t1 t2 t3 t4 t5 t6 t7 rest rfl hu_state hu_ts
    constructor
    · intro hne
      exact ⟨_, hrec.trans (hsl.1 hne), hstate, rfl, hts, rfl, rfl⟩
    · intro heq h32
      refine ⟨_, hrec.trans (hsl.2 heq h32), rfl, rfl, ?_, rfl, rfl, hts⟩
      simp [List.length_take]
      omega
  · have hrec : receive m st now
        [SocketRead.packet
          { ptype := PacketType.ServerChallengeResponse, seq := seq, ackSeq := aseq,
            ackBits := abits,
            payload := b0 :: b1 :: t0 :: t1 :: t2 :: t3 :: t4 :: t5 :: t6 :: t7 :: rest }] =
        socketLoop m (updateFrameState st now) now
          [SocketRead.packet
            { ptype := PacketType.ServerChallengeResponse, seq := seq, ackSeq := aseq,
              ackBits := abits,
              payload := b0 :: b1 :: t0 :: t1 :: t2 :: t3 :: t4 :: t5 :: t6 :: t7 :: rest }] := by
      simp only [receive]
      rw [hu_conn]
      simp only [if_neg hr]
    have hsl := socketLoop_scr m (updateFrameState st now)
      now myT seq aseq abits b0 b1 t0 t1 t2 t3 t4 t5 t6 t7 rest hconn hstate hts
    constructor
    · intro hne
      exact ⟨_, hrec.trans (hsl.1 hne), hstate, rfl, hts, hconn, rfl⟩
    · intro heq h32
      refine ⟨_, hrec.trans (hsl.2 heq h32), rfl, rfl, ?_, rfl, hconn, hts⟩
      simp [List.length_take]
      omega

/-- A concrete client awaiting the challenge response with stored
timestamp 777. -/
def challengeClient : ClientState :=
  { disconnectedClient with preConnectionTimestamp := some 777 }

/-- Witness for `challengeResponse_spec`: server tick 7, matching echoed
timestamp 777, and 33 digest-candidate bytes of which exactly 32 are
stored. -/
theorem challengeResponse_spec_witness :
    challengeClient.serverConnection = none ∧
    challengeClient.connectionState = ClientConnectionState.AwaitingChallengeResponse ∧
    challengeClient.preConnectionTimestamp = some 777 ∧
    (∃ st1, receive sampleManifest challengeClient 0
        [SocketRead.packet
          { ptype := PacketType.ServerChallengeResponse, seq := 0, ackSeq := 0, ackBits := 0,
            payload := 0 :: 7 :: 0 :: 0 :: 0 :: 0 :: 0 :: 0 :: 3 :: 9 :: List.replicate 33 4 }] =
        some (ReceiveOut.ev ClientEvent.none, st1, []) ∧
      st1.connectionState = ClientConnectionState.AwaitingConnectResponse ∧
      st1.preConnectionDigest = some ((List.replicate 33 4).take 32) ∧
      ((List.replicate 33 4).take 32).length = 32 ∧
      st1.tickManager.tick = beVal [0, 7] % 65536 ∧
      st1.serverConnection = none ∧
      st1.preConnectionTimestamp = some 777) :=
  ⟨rfl, rfl, rfl,
   (challengeResponse_spec sampleManifest challengeClient 0 777 0 0 0 0 7 0 0 0 0 0 0 3 9
     (List.replicate 33 4) rfl rfl rfl).2 (by decide) (by decide)⟩

/-- Serialized events of a list, concatenated in order. -/
def concatBytes (l : List REvent) : List Nat :=
  (l.map eventWireBytes).join

/-- Unfolding of `concatBytes` on nil. -/
theorem concatBytes_nil : concatBytes [] = [] := rfl

/-- Unfolding of `concatBytes` on cons. -/
theorem concatBytes_cons (e : REvent) (l : List REvent) :
    concatBytes (e :: l) = eventWireBytes e ++ concatBytes l := by
  simp [concatBytes]

/-- One serialized event is never empty (it starts with a 3-byte header). -/
theorem eventWireBytes_ne_nil (e : REvent) : eventWireBytes e ≠ [] := by
  simp [eventWireBytes]

/-- The concatenation of serialized events is empty only for no events. -/
theorem concatBytes_eq_nil (l : List REvent) : concatBytes l = [] ↔ l = [] := by
  cases l with
  | nil => simp [concatBytes_nil]
  | cons e rest =>
    simp [concatBytes_cons]
    intro h
    exact absurd h (eventWireBytes_ne_nil e)

/-- Pushing appends the event at the end of the key's bucket. -/
theorem bucketGet_bucketPush_self (sent : List (Nat × List REvent)) (s : Nat)
    (e : REvent) : bucketGet (bucketPush sent s e) s = bucketGet sent s ++ [e] := by
  induction sent with
  | nil => simp [bucketPush, bucketGet, lookupBucket]
  | cons p rest ih =>
    obtain ⟨k0, v⟩ := p
    by_cases hk : k0 = s
    · subst hk
      simp [bucketPush, bucketGet, lookupBucket]
    · simp only [bucketPush, if_neg hk]
      simpa [bucketGet, lookupBucket, hk] using ih

/-- Pushing onto one key leaves every other key's bucket unchanged. -/
theorem lookupBucket_bucketPush_other (sent : List (Nat × List REvent))
    (s j : Nat) (e : REvent) (hj : j ≠ s) :
    lookupBucket (bucketPush sent s e) j = lookupBucket sent j := by
  induction sent with
  | nil =>
    have : ¬ s = j := fun hx => hj hx.symm
    simp [bucketPush, lookupBucket, this]
  | cons p rest ih =>
    obtain ⟨k0, v⟩ := p
    by_cases hk : k0 = s
    · subst hk
      have hk0j : ¬ k0 = j := fun hx => hj hx.symm
      simp [bucketPush, lookupBucket, hk0j]
    · simp only [bucketPush, if_neg hk]
      by_cases hj0 : k0 = j
      · subst hj0
        simp [lookupBucket]
      · simpa [lookupBucket, hj0] using ih

/-- After a push the key's bucket is non-empty. -/
theorem bucketNonempty_bucketPush (sent : List (Nat × List REvent)) (s : Nat)
    (e : REvent) : bucketNonempty (bucketPush sent s e) s = true := by
  induction sent with
  | nil => simp [bucketPush, bucketNonempty, lookupBucket]
  | cons p rest ih =>
    obtain ⟨k0, v⟩ := p
    by_cases hk : k0 = s
    · subst hk
      simp [bucketPush, bucketNonempty, lookupBucket]
    · simpa [bucketPush, bucketNonempty, lookupBucket, hk] using ih

/-- Characterization of the drain loop of `get_outgoing_packet`: some
prefix of `k` queued events is written to the writer in order; the
outgoing queue keeps exactly the remaining suffix (the event whose write
failed back at the front), the guaranteed events among the written prefix
are appended to the packet's bucket, other buckets and the incoming queue
are untouched, and when the drain stopped early the next event did not
fit the MTU budget. -/
theorem drainEvents_spec (mtu s : Nat) :
    ∀ (q : List REvent) (em : EventManager) (w : PacketWriter),
      em.queued_outgoing_events = q →
      bucketNonempty em.sent_events s = true →
      ∃ k, k ≤ q.length ∧
        (drainEvents mtu s em w).1.queued_outgoing_events = q.drop k ∧
        (drainEvents mtu s em w).1.queued_incoming_events =
          em.queued_incoming_events ∧
        bucketGet (drainEvents mtu s em w).1.sent_events s =
          bucketGet em.sent_events s ++ (q.take k).filter (fun e => e.guaranteed) ∧
        (∀ j, j ≠ s → lookupBucket (drainEvents mtu s em w).1.sent_events j =
          lookupBucket em.sent_events j) ∧
        (drainEvents mtu s em w).2.pingBytes = w.pingBytes ∧
        (drainEvents mtu s em w).2.eventCount = w.eventCount + k ∧
        (drainEvents mtu s em w).2.eventBytes = w.eventBytes ++ concatBytes (q.take k) ∧
        (∀ hlt : k < q.length,
          mtu < w.eventBytes.length + (concatBytes (q.take k)).length +
            (eventWireBytes (q.get ⟨k, hlt⟩)).length) := by
  intro q
  induction q with
  | nil =>
    intro em w hq hwf
    obtain ⟨qf, inc, sent⟩ := em
    simp only at hq
    subst hq
    refine ⟨0, by simp, ?_⟩
    rw [drainEvents.eq_def]
    simp [concatBytes_nil]
  | cons e rest ih =>
    intro em w hq hwf
    obtain ⟨qf, inc, sent⟩ := em
    simp only at hq hwf
    subst hq
    by_cases hg : e.guaranteed
    · by_cases hfit : mtu < w.eventBytes.length + (eventWireBytes e).length
      · -- the very first write fails: unpop restores the manager
        have hstep : drainEvents mtu s
            { queued_outgoing_events := e :: rest, queued_incoming_events := inc,
              sent_events := sent } w =
            ({ queued_outgoing_events := e :: rest, queued_incoming_events := inc,
               sent_events := sent }, w) := by
          rw [drainEvents.eq_def]
          split
          · rename_i h0
            first
              | rfl
              | simp at h0
          · split
            · rename_i e1 em1 h2
              simp only [EventManager.popOutgoingEvent] at h2
              rw [if_pos hg] at h2
              simp only [Prod.mk.injEq, Option.some.injEq] at h2
              obtain ⟨ha, hb⟩ := h2
              subst ha
              subst hb
              split
              · rename_i w1 h3
                simp only [PacketWriter.writeEvent] at h3
                rw [if_pos hfit] at h3
                simp at h3
              · rename_i snd h3
                simp [EventManager.unpopOutgoingEvent, hg,
                  bucketPopLast_bucketPush sent s e hwf]
            · rename_i em1 h2
              simp only [EventManager.popOutgoingEvent] at h2
              rw [if_pos hg] at h2
              simp at h2
        refine ⟨0, by simp, ?_⟩
        rw [hstep]
        simp [concatBytes_nil, hfit]
      · -- the first write fits: recurse
        have hrest := ih
          { queued_outgoing_events := rest, queued_incoming_events := inc,
            sent_events := bucketPush sent s e }
          { w with eventCount := w.eventCount + 1,
                   eventBytes := w.eventBytes ++ eventWireBytes e }
          rfl (bucketNonempty_bucketPush sent s e)
        obtain ⟨k, hk, hqd, hinc, hbg, hoth, hping, hcount, hbytes, hfail⟩ := hrest
        have hstep : drainEvents mtu s
            { queued_outgoing_events := e :: rest, queued_incoming_events := inc,
              sent_events := sent } w =
            drainEvents mtu s
              { queued_outgoing_events := rest, queued_incoming_events := inc,
                sent_events := bucketPush sent s e }
              { w with eventCount := w.eventCount + 1,
                       eventBytes := w.eventBytes ++ eventWireBytes e } := by
          rw [drainEvents.eq_def]
          split
          · rename_i h0
            first
              | rfl
              | simp at h0
          · split
            · rename_i e1 em1 h2
              simp only [EventManager.popOutgoingEvent] at h2
              rw [if_pos hg] at h2
              simp only [Prod.mk.injEq, Option.some.injEq] at h2
              obtain ⟨ha, hb⟩ := h2
              subst ha
              subst hb
              split
              · rename_i w1 h3
                simp only [PacketWriter.writeEvent] at h3
                rw [if_neg hfit] at h3
                simp only [Prod.mk.injEq] at h3
                obtain ⟨-, hw⟩ := h3
                subst hw
                rfl
              · rename_i snd h3
                simp only [PacketWriter.writeEvent] at h3
                rw [if_neg hfit] at h3
                simp at h3
            · rename_i em1 h2
              simp only [EventManager.popOutgoingEvent] at h2
              rw [if_pos hg] at h2
              simp at h2
        refine ⟨k + 1, by simpa using Nat.succ_le_succ hk, ?_⟩
        rw [hstep]
        refine ⟨by simpa using hqd, by simpa using hinc, ?_, ?_, hping, ?_, ?_, ?_⟩
        · rw [hbg]
          simp only [bucketGet_bucketPush_self, List.take_cons, List.filter_cons, hg]
          simp [List.filter_cons, hg, List.append_assoc]
        · intro j hj
          rw [hoth j hj]
          exact lookupBucket_bucketPush_other sent s j e hj
        · rw [hcount]
          show w.eventCount + 1 + k = w.eventCount + (k + 1)
          omega
        · rw [hbytes]
          show w.eventBytes ++ eventWireBytes e ++ concatBytes (List.take k rest) =
            w.eventBytes ++ concatBytes (List.take (k + 1) (e :: rest))
          rw [List.take_succ_cons, concatBytes_cons, List.append_assoc]
        · intro hlt
          have hlt2 : k < rest.length := by simpa using Nat.lt_of_succ_lt_succ hlt
          have := hfail hlt2
          simp only [List.length_append] at this
          rw [List.take_succ_cons, concatBytes_cons, List.length_append]
          have hget : (e :: rest).get ⟨k + 1, hlt⟩ = rest.get ⟨k, hlt2⟩ := rfl
          rw [hget]
          omega
    · -- non-guaranteed head: the bucket is untouched either way
      by_cases hfit : mtu < w.eventBytes.length + (eventWireBytes e).length
      · have hstep : drainEvents mtu s
            { queued_outgoing_events := e :: rest, queued_incoming_events := inc,
              sent_events := sent } w =
            ({ queued_outgoing_events := e :: rest, queued_incoming_events := inc,
               sent_events := sent }, w) := by
          rw [drainEvents.eq_def]
          split
          · rename_i h0
            first
              | rfl
              | simp at h0
          · split
            · rename_i e1 em1 h2
              simp only [EventManager.popOutgoingEvent] at h2
              rw [if_neg hg] at h2
              simp only [Prod.mk.injEq, Option.some.injEq] at h2
              obtain ⟨ha, hb⟩ := h2
              subst ha
              subst hb
              split
              · rename_i w1 h3
                simp only [PacketWriter.writeEvent] at h3
                rw [if_pos hfit] at h3
                simp at h3
              · rename_i snd h3
                simp [EventManager.unpopOutgoingEvent, hg]
            · rename_i em1 h2
              simp only [EventManager.popOutgoingEvent] at h2
              rw [if_neg hg] at h2
              simp at h2
        refine ⟨0, by simp, ?_⟩
        rw [hstep]
        simp [concatBytes_nil, hfit]
      · have hrest := ih
          { queued_outgoing_events := rest, queued_incoming_events := inc,
            sent_events := sent }
          { w with eventCount := w.eventCount + 1,
                   eventBytes := w.eventBytes ++ eventWireBytes e }
          rfl hwf
        obtain ⟨k, hk, hqd, hinc, hbg, hoth, hping, hcount, hbytes, hfail⟩ := hrest
        have hstep : drainEvents mtu s
            { queued_outgoing_events := e :: rest, queued_incoming_events := inc,
              sent_events := sent } w =
            drainEvents mtu s
              { queued_outgoing_events := rest, queued_incoming_events := inc,
                sent_events := sent }
              { w with eventCount := w.eventCount + 1,
                       eventBytes := w.eventBytes ++ eventWireBytes e } := by
          rw [drainEvents.eq_def]
          split
          · rename_i h0
            first
              | rfl
              | simp at h0
          · split
            · rename_i e1 em1 h2
              simp only [EventManager.popOutgoingEvent] at h2
              rw [if_neg hg] at h2
              simp only [Prod.mk.injEq, Option.some.injEq] at h2
              obtain ⟨ha, hb⟩ := h2
              subst ha
              subst hb
              split
              · rename_i w1 h3
                simp only [PacketWriter.writeEvent] at h3
                rw [if_neg hfit] at h3
                simp only [Prod.mk.injEq] at h3
                obtain ⟨-, hw⟩ := h3
                subst hw
                rfl
              · rename_i snd h3
                simp only [PacketWriter.writeEvent] at h3
                rw [if_neg hfit] at h3
                simp at h3
            · rename_i em1 h2
              simp only [EventManager.popOutgoingEvent] at h2
              rw [if_neg hg] at h2
              simp at h2
        refine ⟨k + 1, by simpa using Nat.succ_le_succ hk, ?_⟩
        rw [hstep]
        refine ⟨by simpa using hqd, by simpa using hinc, ?_, hoth, hping, ?_, ?_, ?_⟩
        · rw [hbg]
          simp [List.filter_cons, hg]
        · rw [hcount]
          show w.eventCount + 1 + k = w.eventCount + (k + 1)
          omega
        · rw [hbytes]
          show w.eventBytes ++ eventWireBytes e ++ concatBytes (List.take k rest) =
            w.eventBytes ++ concatBytes (List.take (k + 1) (e :: rest))
          rw [List.take_succ_cons, concatBytes_cons, List.append_assoc]
        · intro hlt
          have hlt2 : k < rest.length := by simpa using Nat.lt_of_succ_lt_succ hlt
          have := hfail hlt2
          simp only [List.length_append] at this
          rw [List.take_succ_cons, concatBytes_cons, List.length_append]
          have hget : (e :: rest).get ⟨k + 1, hlt⟩ = rest.get ⟨k, hlt2⟩ := rfl
          rw [hget]
          omega

/-- Taking a positive number of elements of a non-empty list is non-empty. -/
theorem take_ne_nil_of (l : List REvent) (n : Nat) (h1 : n ≠ 0) (h2 : l ≠ []) :
    l.take n ≠ [] := by
  cases l with
  | nil => exact absurd rfl h2
  | cons a as =>
    cases n with
    | zero => exact absurd rfl h1
    | succ m => simp

/-- The 8-byte timestamp block is never empty. -/
theorem beBytes64_ne_nil (v : Nat) : beBytes64 v ≠ [] := by
  simp [beBytes64]

/-- Claim C8: `ServerConnection::get_outgoing_packet` returns `None` and
leaves the state unchanged when no events are queued and no ping is due;
otherwise it drains a prefix of `k` queued events in order into the
packet (recording the guaranteed ones in the packet's bucket), stops at
the first event that does not fit the MTU budget leaving exactly that
event back at the queue front for the same packet index, and returns any
written bytes under a Data header stamped with the current packet index. -/
theorem getOutgoingPacket_spec (mtu now : Nat) (sc : ServerConnection)
    (hwf : bucketNonempty sc.connection.eventManager.sent_events
      sc.connection.nextOutgoingSeq = true) :
    (sc.connection.eventManager.hasOutgoingEvents = false →
      sc.pingManager.shouldWrite now = false →
      ServerConnection.getOutgoingPacket mtu now sc = (none, sc)) ∧
    (∃ k, k ≤ sc.connection.eventManager.queued_outgoing_events.length ∧
      (ServerConnection.getOutgoingPacket mtu now
          sc).2.connection.eventManager.queued_outgoing_events =
        sc.connection.eventManager.queued_outgoing_events.drop k ∧
      (ServerConnection.getOutgoingPacket mtu now
          sc).2.connection.eventManager.queued_incoming_events =
        sc.connection.eventManager.queued_incoming_events ∧
      bucketGet (ServerConnection.getOutgoingPacket mtu now
          sc).2.connection.eventManager.sent_events sc.connection.nextOutgoingSeq =
        bucketGet sc.connection.eventManager.sent_events sc.connection.nextOutgoingSeq ++
          (sc.connection.eventManager.queued_outgoing_events.take k).filter
            (fun e => e.guaranteed) ∧
      (∀ hlt : k < sc.connection.eventManager.queued_outgoing_events.length,
        mtu < (concatBytes
            (sc.connection.eventManager.queued_outgoing_events.take k)).length +
          (eventWireBytes
            (sc.connection.eventManager.queued_outgoing_events.get ⟨k, hlt⟩)).length) ∧
      (∀ p, (ServerConnection.getOutgoingPacket mtu now sc).1 = some p →
        p.ptype = PacketType.Data ∧
        p.seq = sc.connection.nextOutgoingSeq ∧
        p.payload =
          (if sc.pingManager.shouldWrite now then 2 :: beBytes64 now else []) ++
          (if k = 0 then [] else
            0 :: (k % 256) ::
              concatBytes (sc.connection.eventManager.queued_outgoing_events.take k)) ∧
        p.payload ≠ [])) := by
  by_cases hcond : (sc.connection.eventManager.hasOutgoingEvents ||
      sc.pingManager.shouldWrite now) = true
  case neg =>
    have hres : ServerConnection.getOutgoingPacket mtu now sc = (none, sc) := by
      simp only [ServerConnection.getOutgoingPacket]
      rw [if_neg hcond]
    have ha : sc.connection.eventManager.hasOutgoingEvents = false := by
      cases h : sc.connection.eventManager.hasOutgoingEvents
      · rfl
      · rw [h] at hcond
        simp at hcond
    have hq0 : sc.connection.eventManager.queued_outgoing_events = [] := by
      have h1 := ha
      simp [EventManager.hasOutgoingEvents] at h1
      exact h1
    refine ⟨fun _ _ => hres, 0, by simp, ?_, ?_, ?_, ?_, ?_⟩
    · rw [hres]
      simp
    · rw [hres]
    · rw [hres]
      simp
    · intro hlt
      rw [hq0] at hlt
      simp at hlt
    · intro p hp
      rw [hres] at hp
      exact Option.noConfusion hp
  case pos =>
    refine ⟨fun ha hb => absurd hcond (by simp [ha, hb]), ?_⟩
    by_cases hping : sc.pingManager.shouldWrite now = true
    · -- a ping block is written first
      obtain ⟨k, hk, hqd, hinc, hbg, hoth, hpb, hcnt, hby, hfail⟩ :=
        drainEvents_spec mtu sc.connection.nextOutgoingSeq
          sc.connection.eventManager.queued_outgoing_events
          sc.connection.eventManager
          { pingBytes := beBytes64 now, eventCount := 0, eventBytes := [] } rfl hwf
      rcases hdr : drainEvents mtu sc.connection.nextOutgoingSeq
          sc.connection.eventManager
          { pingBytes := beBytes64 now, eventCount := 0, eventBytes := [] }
        with ⟨em2, w2⟩
      rw [hdr] at hqd hinc hbg hpb hcnt hby
      have hpb2 : w2.pingBytes = beBytes64 now := hpb
      have hcnt2 : w2.eventCount = k := by simpa using hcnt
      have hby2 : w2.eventBytes =
          concatBytes (sc.connection.eventManager.queued_outgoing_events.take k) := by
        simpa using hby
      have hres : ServerConnection.getOutgoingPacket mtu now sc =
          (if w2.hasBytes then
            (some { ptype := PacketType.Data, seq := sc.connection.nextOutgoingSeq,
                    ackSeq := sc.connection.lastRemoteSeq,
                    ackBits := sc.connection.remoteAckBitfield,
                    payload := w2.getBytes },
             { sc with
                connection := { sc.connection with
                  eventManager := em2,
                  nextOutgoingSeq := (sc.connection.nextOutgoingSeq + 1) % 65536,
                  sentSeqs := sc.connection.sentSeqs ++ [sc.connection.nextOutgoingSeq] },
                pingManager := { sc.pingManager with inFlight := true, lastSentAt := now } })
           else
            (none,
             { sc with
                connection := { sc.connection with eventManager := em2 },
                pingManager := { sc.pingManager with inFlight := true, lastSentAt := now } })) := by
        simp [ServerConnection.getOutgoingPacket, hcond, hping, PingManager.writeData,
          PacketWriter.new, hdr, Connection.processOutgoingHeader]
      by_cases hb2 : w2.hasBytes = true
      · have hres2 := hres.trans (if_pos hb2)
        refine ⟨k, hk, ?_, ?_, ?_, ?_, ?_⟩
        · rw [hres2]
          exact hqd
        · rw [hres2]
          exact hinc
        · rw [hres2]
          exact hbg
        · intro hlt
          have := hfail hlt
          simpa using this
        · intro p hp
          rw [hres2] at hp
          simp only [Option.some.injEq] at hp
          subst hp
          refine ⟨rfl, rfl, ?_, ?_⟩
          · simp only [PacketWriter.getBytes, hpb2, hby2, hcnt2, hping, if_true]
            by_cases hk0 : k = 0
            · subst hk0
              simp [beBytes64, concatBytes_nil]
            · have hq_ne : sc.connection.eventManager.queued_outgoing_events ≠ [] := by
                intro hx
                rw [hx] at hk
                simp at hk
                exact hk0 hk
              have htk : sc.connection.eventManager.queued_outgoing_events.take k ≠ [] := by
                exact take_ne_nil_of _ _ hk0 hq_ne
              have hcb : concatBytes
                  (sc.connection.eventManager.queued_outgoing_events.take k) ≠ [] :=
                fun hx => htk ((concatBytes_eq_nil _).mp hx)
              simp [beBytes64, hk0, List.isEmpty_iff, hcb]
          · simp only [PacketWriter.getBytes, hpb2]
            simp [beBytes64]
      · have hres2 := hres.trans (if_neg hb2)
        refine ⟨k, hk, ?_, ?_, ?_, ?_, ?_⟩
        · rw [hres2]
          exact hqd
        · rw [hres2]
          exact hinc
        · rw [hres2]
          exact hbg
        · intro hlt
          have := hfail hlt
          simpa using this
        · intro p hp
          rw [hres2] at hp
          exact Option.noConfusion hp
    · -- no ping block: the fresh writer starts empty
      have hhas : sc.connection.eventManager.hasOutgoingEvents = true := by
        cases h : sc.connection.eventManager.hasOutgoingEvents
        · rw [h] at hcond
          simp at hcond
          exact absurd hcond hping
        · rfl
      obtain ⟨k, hk, hqd, hinc, hbg, hoth, hpb, hcnt, hby, hfail⟩ :=
        drainEvents_spec mtu sc.connection.nextOutgoingSeq
          sc.connection.eventManager.queued_outgoing_events
          sc.connection.eventManager
          { pingBytes := [], eventCount := 0, eventBytes := [] } rfl hwf
      rcases hdr : drainEvents mtu sc.connection.nextOutgoingSeq
          sc.connection.eventManager
          { pingBytes := [], eventCount := 0, eventBytes := [] }
        with ⟨em2, w2⟩
      rw [hdr] at hqd hinc hbg hpb hcnt hby
      have hpb2 : w2.pingBytes = [] := hpb
      have hcnt2 : w2.eventCount = k := by simpa using hcnt
      have hby2 : w2.eventBytes =
          concatBytes (sc.connection.eventManager.queued_outgoing_events.take k) := by
        simpa using hby
      have hres : ServerConnection.getOutgoingPacket mtu now sc =
          (if w2.hasBytes then
            (some { ptype := PacketType.Data, seq := sc.connection.nextOutgoingSeq,
                    ackSeq := sc.connection.lastRemoteSeq,
                    ackBits := sc.connection.remoteAckBitfield,
                    payload := w2.getBytes },
             { sc with
                connection := { sc.connection with
                  eventManager := em2,
                  nextOutgoingSeq := (sc.connection.nextOutgoingSeq + 1) % 65536,
                  sentSeqs := sc.connection.sentSeqs ++ [sc.connection.nextOutgoingSeq] } })
           else
            (none, { sc with connection := { sc.connection with eventManager := em2 } })) := by
        simp [ServerConnection.getOutgoingPacket, hhas, hping, PacketWriter.new, hdr,
          Connection.processOutgoingHeader]
      by_cases hb2 : w2.hasBytes = true
      · have hres2 := hres.trans (if_pos hb2)
        have hk0 : k ≠ 0 := by
          intro hx
          subst hx
          rw [PacketWriter.hasBytes, hpb2, hby2] at hb2
          simp [concatBytes_nil] at hb2
        refine ⟨k, hk, ?_, ?_, ?_, ?_, ?_⟩
        · rw [hres2]
          exact hqd
        · rw [hres2]
          exact hinc
        · rw [hres2]
          exact hbg
        · intro hlt
          have := hfail hlt
          simpa using this
        · intro p hp
          rw [hres2] at hp
          simp only [Option.some.injEq] at hp
          subst hp
          refine ⟨rfl, rfl, ?_, ?_⟩
          · simp only [PacketWriter.getBytes, hpb2, hby2, hcnt2]
            have hq_ne : sc.connection.eventManager.queued_outgoing_events ≠ [] := by
              intro hx
              rw [hx] at hk
              simp at hk
              exact hk0 hk
            have htk : sc.connection.eventManager.queued_outgoing_events.take k ≠ [] := by
              exact take_ne_nil_of _ _ hk0 hq_ne
            have hcb : concatBytes
                (sc.connection.eventManager.queued_outgoing_events.take k) ≠ [] :=
              fun hx => htk ((concatBytes_eq_nil _).mp hx)
            simp [hping, hk0, List.isEmpty_iff, hcb]
          · simp only [PacketWriter.getBytes, hpb2, hby2, hcnt2]
            have hne : w2.eventBytes ≠ [] := by
              intro hx
              rw [PacketWriter.hasBytes, hpb2, hx] at hb2
              simp at hb2
            rw [hby2] at hne
            simp [List.isEmpty_iff, hne]
      · have hres2 := hres.trans (if_neg hb2)
        refine ⟨k, hk, ?_, ?_, ?_, ?_, ?_⟩
        · rw [hres2]
          exact hqd
        · rw [hres2]
          exact hinc
        · rw [hres2]
          exact hbg
        · intro hlt
          have := hfail hlt
          simpa using this
        · intro p hp
          rw [hres2] at hp
          exact Option.noConfusion hp

/-- A concrete guaranteed event with empty payload (3 wire bytes). -/
def tinyEvent : REvent := { naiaId := 1, payload := [], guaranteed := true }

/-- A concrete server connection with two queued tiny events, no ping due
at instant 6 (a ping is in flight, sent at 5 with interval 10). -/
def sampleServerConnection : ServerConnection :=
  { connection :=
      { eventManager :=
          { queued_outgoing_events := [tinyEvent, tinyEvent],
            queued_incoming_events := [], sent_events := [] },
        heartbeatTimer := { interval := 4, nextFire := 100 },
        dropTimer := { interval := 10, nextFire := 100 },
        nextOutgoingSeq := 0, lastRemoteSeq := 0, remoteAckBitfield := 0,
        sentSeqs := [] },
    entityManager := ClientEntityManager.new,
    pingManager := { pingInterval := 10, sampleSize := 20, inFlight := true,
                     lastSentAt := 5 } }

/-- Witness for `getOutgoingPacket_spec` with MTU budget 3 at instant 6:
only the first of the two queued 3-byte events fits. -/
theorem getOutgoingPacket_spec_witness :
    bucketNonempty sampleServerConnection.connection.eventManager.sent_events
      sampleServerConnection.connection.nextOutgoingSeq = true ∧
    (∃ k, k ≤ sampleServerConnection.connection.eventManager.queued_outgoing_events.length ∧
      (ServerConnection.getOutgoingPacket 3 6
          sampleServerConnection).2.connection.eventManager.queued_outgoing_events =
        sampleServerConnection.connection.eventManager.queued_outgoing_events.drop k ∧
      (ServerConnection.getOutgoingPacket 3 6
          sampleServerConnection).2.connection.eventManager.queued_incoming_events =
        sampleServerConnection.connection.eventManager.queued_incoming_events ∧
      bucketGet (ServerConnection.getOutgoingPacket 3 6
          sampleServerConnection).2.connection.eventManager.sent_events
          sampleServerConnection.connection.nextOutgoingSeq =
        bucketGet sampleServerConnection.connection.eventManager.sent_events
            sampleServerConnection.connection.nextOutgoingSeq ++
          (sampleServerConnection.connection.eventManager.queued_outgoing_events.take k).filter
            (fun e => e.guaranteed) ∧
      (∀ hlt : k < sampleServerConnection.connection.eventManager.queued_outgoing_events.length,
        3 < (concatBytes
            (sampleServerConnection.connection.eventManager.queued_outgoing_events.take k)).length +
          (eventWireBytes
            (sampleServerConnection.connection.eventManager.queued_outgoing_events.get
              ⟨k, hlt⟩)).length) ∧
      (∀ p, (ServerConnection.getOutgoingPacket 3 6 sampleServerConnection).1 = some p →
        p.ptype = PacketType.Data ∧
        p.seq = sampleServerConnection.connection.nextOutgoingSeq ∧
        p.payload =
          (if sampleServerConnection.pingManager.shouldWrite 6 then 2 :: beBytes64 6 else []) ++
          (if k = 0 then [] else
            0 :: (k % 256) ::
              concatBytes
                (sampleServerConnection.connection.eventManager.queued_outgoing_events.take k)) ∧
        p.payload ≠ [])) :=
  ⟨by decide, (getOutgoingPacket_spec 3 6 sampleServerConnection (by decide)).2⟩
